import Mathlib

/-!
# aws-sdk-go-base: partition lookup, error classification and credential resolution

A shallow embedding of `endpoints/partition.go`, `credentials.go` and
`internal/config/user_agent.go`.

Conventions of the embedding:

* a Go `map[string]V` is the list of its entries, in the order in which the one
  `range` loop of the function under study visits them, together with the
  proof that no key occurs twice (`GoMap`);
* a Go pointer or slice that may be `nil` is an `Option`;
* `*regexp.Regexp` is a type parameter `Regexp` with its `MatchString` method
  passed as a function: the regular-expression engine is a library;
* a call that panics at run time returns `none`;
* the partition table, the AWS SDK and the helpers of the package whose source
  is not at hand are arguments: a `PartitionTable`, a `World`;
* what `errors.go` defines is modelled from the specification, and says so.

Definitions come first; the theorems follow from the heading `Theorems` on.
-/

set_option autoImplicit false

namespace AwsBase

/-! ## Go maps -/

/-- A Go `map[string]V`: its entries in iteration order, keys pairwise distinct. -/
structure GoMap (V : Type) where
  entries : List (String × V)
  nodup : (entries.map Prod.fst).Nodup
  deriving DecidableEq

namespace GoMap

variable {V : Type}

/-- The empty (or nil) map. -/
def empty : GoMap V := ⟨[], List.nodup_nil⟩

/-- The builtin `len(m)`. -/
def len (m : GoMap V) : Nat := m.entries.length

/-- The lookup `v, ok := m[k]`; `none` stands for `ok == false`. -/
def get? (m : GoMap V) (k : String) : Option V :=
  (m.entries.find? (fun kv => kv.1 == k)).map Prod.snd

/-- The keys of the map, in iteration order. -/
def keys (m : GoMap V) : List String := m.entries.map Prod.fst

end GoMap

/-! ## endpoints/partition.go -/

namespace endpoints

/-- The struct `Partition`; `regionRegex` is a pointer, `none` is nil. -/
structure Partition (Regexp : Type) where
  id : String
  name : String
  dnsSuffix : String
  regionRegex : Option Regexp
  deriving DecidableEq

/-- The zero value `Partition{}`. -/
def Partition.zero {Regexp : Type} : Partition Regexp :=
  { id := "", name := "", dnsSuffix := "", regionRegex := none }

/-- Modelled from the spec: the struct `Region` ("region metadata"), whose
declaration is not part of the sources at hand. Only the keys of a region map
are ever inspected by the functions below. -/
structure Region where
  id : String
  description : String
  deriving DecidableEq

/-- The element type of the partition table: a partition and its regions,
indexed by region id. -/
structure partitionAndRegions (Regexp : Type) where
  partition : Partition Regexp
  regions : GoMap Region
  deriving DecidableEq

/-- The type of the package-level table `partitionsAndRegions`, indexed by
partition id. The table itself is generated data; every function below takes
it as an argument. -/
abbrev PartitionTable (Regexp : Type) := GoMap (partitionAndRegions Regexp)

section
variable {Regexp : Type}

/-- `DefaultPartitions`: `make([]Partition, len(table))` followed by one
`append` per table entry. -/
def DefaultPartitions (partitionsAndRegions : PartitionTable Regexp) :
    List (Partition Regexp) :=
  partitionsAndRegions.entries.foldl (fun ps kv => ps ++ [kv.2.partition])
    (List.replicate partitionsAndRegions.len Partition.zero)

/-- `PartitionForRegion`. The result is `none` when the call panics, which
happens when `MatchString` is reached on a nil `regionRegex`. -/
def PartitionForRegion (MatchString : Regexp → String → Bool)
    (partitionsAndRegions : PartitionTable Regexp) :
    List (Partition Regexp) → String → Option (Partition Regexp × Bool)
  | [], _ => some (Partition.zero, false)
  | p :: ps, regionID =>
    match partitionsAndRegions.get? p.id with
    | none => PartitionForRegion MatchString partitionsAndRegions ps regionID
    | some partitionAndRegion =>
      if (partitionAndRegion.regions.get? regionID).isSome then some (p, true)
      else
        match partitionAndRegion.partition.regionRegex with
        | none => none
        | some re =>
          if MatchString re regionID then some (p, true)
          else PartitionForRegion MatchString partitionsAndRegions ps regionID

/-- The partition `p` has `regionID` as an exact key of its region set in the
table: the table has an entry under `p.id` whose regions have the key. -/
def hasRegionKey (partitionsAndRegions : PartitionTable Regexp) (regionID : String)
    (p : Partition Regexp) : Prop :=
  ∃ kv ∈ partitionsAndRegions.entries, kv.1 = p.id ∧ regionID ∈ kv.2.regions.keys

/-- The partition `p` includes `regionID`: the table has an entry under `p.id`,
and `regionID` is a key of that entry's regions or is matched by that entry's
regular expression. -/
def includesRegion (MatchString : Regexp → String → Bool)
    (partitionsAndRegions : PartitionTable Regexp) (regionID : String)
    (p : Partition Regexp) : Prop :=
  ∃ kv ∈ partitionsAndRegions.entries, kv.1 = p.id ∧
    (regionID ∈ kv.2.regions.keys ∨
      ∃ re ∈ kv.2.partition.regionRegex, MatchString re regionID = true)

instance (partitionsAndRegions : PartitionTable Regexp) (regionID : String)
    (p : Partition Regexp) : Decidable (hasRegionKey partitionsAndRegions regionID p) := by
  unfold hasRegionKey
  infer_instance

instance (MatchString : Regexp → String → Bool)
    (partitionsAndRegions : PartitionTable Regexp) (regionID : String)
    (p : Partition Regexp) :
    Decidable (includesRegion MatchString partitionsAndRegions regionID p) := by
  unfold includesRegion
  infer_instance

/-- Every partition stored in the table carries a compiled regular expression. -/
def regexCompiled (partitionsAndRegions : PartitionTable Regexp) : Prop :=
  ∀ kv ∈ partitionsAndRegions.entries, kv.2.partition.regionRegex ≠ none

instance (partitionsAndRegions : PartitionTable Regexp) [DecidableEq Regexp] :
    Decidable (regexCompiled partitionsAndRegions) := by
  unfold regexCompiled
  infer_instance

end

/-! ### A small table for the concrete instances

Here a regular expression is modelled by the literal text a region id has to
start with. -/

/-- The matcher of the concrete instances: `re` matches the ids starting with it. -/
def demoMatch (re : String) (regionID : String) : Bool :=
  re.data.isPrefixOf regionID.data

/-- A partition whose expression accepts every id starting with `us-`. -/
def awsPartition : Partition String :=
  { id := "aws", name := "AWS Standard", dnsSuffix := "amazonaws.com", regionRegex := some "us-" }

/-- A partition whose expression accepts every id starting with `us-gov-`. -/
def govPartition : Partition String :=
  { id := "aws-us-gov", name := "AWS GovCloud (US)", dnsSuffix := "amazonaws.com",
    regionRegex := some "us-gov-" }

/-- A two-partition table. The second partition lists, besides `us-gov-west-1`,
the region `fips-gov` that its own expression does not accept. -/
def demoTable : PartitionTable String :=
  { entries :=
      [("aws",
        { partition := awsPartition,
          regions := ⟨[("us-east-1", ⟨"us-east-1", "US East (N. Virginia)"⟩)], by decide⟩ }),
       ("aws-us-gov",
        { partition := govPartition,
          regions := ⟨[("us-gov-west-1", ⟨"us-gov-west-1", "AWS GovCloud (US-West)"⟩),
                       ("fips-gov", ⟨"fips-gov", "FIPS endpoint"⟩)], by decide⟩ })],
    nodup := by decide }

end endpoints

/-! ## errors.go, as far as the spec and `errors_test.go` show it -/

/-- Modelled from the spec: the two error kinds of `errors.go`, which is not
among the sources (section 7: each is a tagged value with an optional wrapped
cause; `errors_test.go` builds them as `NoValidCredentialSourcesError{}` and
`CannotAssumeRoleError{}`), next to the error values of the SDK and of the
standard library that the tests and `credentials.go` meet. These are the
non-nil values of the Go interface `error`; a field of type `error` that may be
nil is an `Option`. -/
inductive Error where
  /-- `*smithy.GenericAPIError`. -/
  | GenericAPIError (Code Message : String)
  /-- `*types.ExpiredTokenException` of the STS service. -/
  | ExpiredTokenException (ErrorCodeOverride Message : Option String)
  /-- `NoValidCredentialSourcesError{Err: ...}`. -/
  | NoValidCredentialSourcesError (Err : Option Error)
  /-- `CannotAssumeRoleError{Err: ...}`. -/
  | CannotAssumeRoleError (Err : Option Error)
  /-- `config.SharedConfigProfileNotExistError{Profile: ..., Err: ...}`. -/
  | SharedConfigProfileNotExistError (Profile : String) (Err : Option Error)
  /-- The value of `fmt.Errorf(format, err)` with a `%w` verb in the format. -/
  | wrapError (format : String) (err : Error)
  /-- The value of `errors.New(s)`: any other error without a cause. -/
  | errorString (s : String)

namespace Error

/-- The method `ErrorCode` of the interface `smithy.APIError`, for the errors
that implement it; `none` for the others. -/
def ErrorCode : Error → Option String
  | GenericAPIError code _ => some code
  | ExpiredTokenException codeOverride _ => some (codeOverride.getD "ExpiredTokenException")
  | _ => none

/-- The function `errors.Unwrap`. -/
def Unwrap : Error → Option Error
  | NoValidCredentialSourcesError err => err
  | CannotAssumeRoleError err => err
  | SharedConfigProfileNotExistError _ err => err
  | wrapError _ err => some err
  | _ => none

/-- The wrap chain of an error: the error, what it wraps, and so on. -/
def chain : Error → List Error
  | e@(NoValidCredentialSourcesError (some err)) => e :: chain err
  | e@(CannotAssumeRoleError (some err)) => e :: chain err
  | e@(SharedConfigProfileNotExistError _ (some err)) => e :: chain err
  | e@(wrapError _ err) => e :: chain err
  | e => [e]

end Error

/-- The wrap chain of a Go `error` that may be nil. -/
def errorChain : Option Error → List Error
  | none => []
  | some e => e.chain

/-- Modelled from the spec: `IsNoValidCredentialSourcesError`, defined in
`errors.go`, which is not among the sources. Section 4.4: it answers whether
the error is a "no valid credential sources" condition, traversing the full
wrap chain and testing each layer against that kind. -/
def IsNoValidCredentialSourcesError (err : Option Error) : Bool :=
  (errorChain err).any fun e =>
    match e with
    | .NoValidCredentialSourcesError _ => true
    | _ => false

/-- Modelled from the spec: `IsCannotAssumeRoleError`, defined in `errors.go`,
which is not among the sources. Section 4.4: it answers whether the error is a
"cannot assume role" condition, traversing the full wrap chain and testing each
layer against that kind. -/
def IsCannotAssumeRoleError (err : Option Error) : Bool :=
  (errorChain err).any fun e =>
    match e with
    | .CannotAssumeRoleError _ => true
    | _ => false

/-- Modelled from the spec: `ErrCodeEquals`, defined in `errors.go`, which is
not among the sources. Section 4.4: does the error, or any error it wraps,
carry one of the given service error codes; the code is the one extracted from
a service API error, compared by exact string equality. -/
def ErrCodeEquals (err : Option Error) (codes : List String) : Bool :=
  (errorChain err).any fun e =>
    match e.ErrorCode with
    | some code => codes.any fun c => c == code
    | none => false

/-- Modelled from the spec: the method `NewNoValidCredentialSourcesError` of
`Config`, defined outside the sources. Section 7: the classified error
preserves the original error as its wrapped cause. -/
def NewNoValidCredentialSourcesError (err : Error) : Error :=
  .NoValidCredentialSourcesError (some err)

/-- Modelled from the spec: the method `NewCannotAssumeRoleError` of `Config`,
defined outside the sources. Section 7: the classified error preserves the
original error as its wrapped cause. -/
def NewCannotAssumeRoleError (err : Error) : Error :=
  .CannotAssumeRoleError (some err)

/-! ## credentials.go

The SDK and the helpers of the package that are not among the sources are the
fields of a `World`; every call that reads the environment, reads files, talks
to the network or writes the log is recorded, in order, in the list of `Call`s
returned with the result. -/

/-- Modelled from the spec: the struct `AssumeRole` (the "AssumeRoleSpec" of
sections 3 and 6), declared outside the sources. `Duration` is a
`time.Duration`, a number of nanoseconds. -/
structure AssumeRole where
  RoleARN : String := ""
  SessionName : String := ""
  ExternalID : String := ""
  Duration : Int := 0
  Policy : String := ""
  PolicyARNs : List String := []
  Tags : GoMap String := GoMap.empty
  TransitiveTagKeys : List String := []
  deriving DecidableEq

/-- Modelled from the spec: the struct `Config` (the "Configuration" of
sections 3 and 6), declared outside the sources; `AssumeRole` is a pointer. -/
structure Config where
  AccessKey : String := ""
  SecretKey : String := ""
  Token : String := ""
  Profile : String := ""
  SharedCredentialsFiles : List String := []
  SharedConfigFiles : List String := []
  AssumeRole : Option AssumeRole := none
  deriving DecidableEq

/-- The struct `aws.Credentials`, without its expiry fields. -/
structure Credentials where
  AccessKeyID : String
  SecretAccessKey : String
  SessionToken : String
  Source : String
  deriving DecidableEq

/-- The struct `types.PolicyDescriptorType` of the STS service. -/
structure PolicyDescriptorType where
  Arn : Option String
  deriving DecidableEq

/-- The struct `types.Tag` of the STS service. -/
structure Tag where
  Key : Option String
  Value : Option String
  deriving DecidableEq

/-- The value of `stsClient(awsConfig, c)`, a handle known by name only. -/
structure STSClient where
  name : String
  deriving DecidableEq

/-- The struct `stscreds.AssumeRoleOptions`, with the fields that
`credentials.go` sets and the two that `NewAssumeRoleProvider` fills in. A nil
pointer or nil slice is `none`. -/
structure AssumeRoleOptions where
  Client : STSClient
  RoleARN : String
  RoleSessionName : String := ""
  Duration : Int := 0
  ExternalID : Option String := none
  Policy : Option String := none
  PolicyARNs : Option (List PolicyDescriptorType) := none
  Tags : Option (List Tag) := none
  TransitiveTagKeys : Option (List String) := none
  deriving DecidableEq

/-- The values of the interface `aws.CredentialsProvider`. -/
inductive CredentialsProvider where
  /-- `credentials.NewStaticCredentialsProvider(key, secret, session)`. -/
  | StaticCredentialsProvider (key secret session : String)
  /-- `*stscreds.AssumeRoleProvider` with its options. -/
  | AssumeRoleProvider (options : AssumeRoleOptions)
  /-- `aws.NewCredentialsCache(provider)`. -/
  | CredentialsCache (provider : CredentialsProvider)
  /-- Any other provider that the SDK resolves (environment, shared files,
  instance metadata, ...), by name. -/
  | resolved (name : String)
  deriving DecidableEq

/-- `stscreds.NewAssumeRoleProvider(client, roleARN, optFn)` of the SDK: the
option function is applied to options that hold the client and the role ARN. -/
def NewAssumeRoleProvider (client : STSClient) (roleARN : String)
    (optFn : AssumeRoleOptions → AssumeRoleOptions) : CredentialsProvider :=
  .AssumeRoleProvider (optFn { Client := client, RoleARN := roleARN })

/-- The struct `aws.Config`, of which only `Credentials` is read. -/
structure AwsConfig where
  Credentials : CredentialsProvider
  deriving DecidableEq

/-- The struct `config.EnvConfig`, with the fields that are read. -/
structure EnvConfig where
  SharedConfigProfile : String := ""
  SharedCredentialsFile : String := ""
  SharedConfigFile : String := ""
  deriving DecidableEq

/-- The value of `credentialsEndpointResolver(c)`, a handle known by name only. -/
structure EndpointResolver where
  name : String
  deriving DecidableEq

/-- The values of `aws.Retryer` that occur. -/
inductive Retryer where
  | NopRetryer
  deriving DecidableEq

/-- The load options (`config.LoadOptionsFunc`) that occur. -/
inductive LoadOption where
  /-- An option made by `commonLoadOptions`, by name. -/
  | common (name : String)
  /-- `config.WithRetryer(func() aws.Retryer { return r })`. -/
  | WithRetryer (r : Retryer)
  | WithEndpointResolverWithOptions (resolver : EndpointResolver)
  | WithSharedConfigProfile (profile : String)
  | WithCredentialsProvider (provider : CredentialsProvider)
  deriving DecidableEq

/-- The collaborators of `credentials.go`: the helpers of the package that are
not among the sources (`commonLoadOptions`, `credentialsEndpointResolver`,
`ResolveSharedCredentialsFiles`, `ResolveSharedConfigFiles`, `stsClient`) and
the SDK (`config.NewEnvConfig`, `config.LoadSharedConfigProfile`,
`config.LoadDefaultConfig`, the method `Retrieve` of a provider). A Go result
`(v, err)` is an `Except`. -/
structure World where
  commonLoadOptions : Config → Except Error (List LoadOption)
  credentialsEndpointResolver : Config → EndpointResolver
  NewEnvConfig : Except Error EnvConfig
  ResolveSharedCredentialsFiles : Config → Except Error (List String)
  ResolveSharedConfigFiles : Config → Except Error (List String)
  /-- The arguments are the profile, `opts.CredentialsFiles` and `opts.ConfigFiles`;
  the loaded profile itself is discarded by the caller. -/
  LoadSharedConfigProfile : String → List String → List String → Except Error Unit
  LoadDefaultConfig : List LoadOption → Except Error AwsConfig
  Retrieve : CredentialsProvider → Except Error Credentials
  stsClient : AwsConfig → Config → STSClient

/-- The calls with an effect outside the process, as they are recorded. -/
inductive Call where
  | NewEnvConfig
  | LoadSharedConfigProfile (profile : String) (CredentialsFiles ConfigFiles : List String)
  | LoadDefaultConfig (loadOptions : List LoadOption)
  | Retrieve (provider : CredentialsProvider)
  /-- The line `[INFO] Attempting to AssumeRole ...` of `log.Printf`, by its arguments. -/
  | Printf (RoleARN SessionName ExternalID : String)
  deriving DecidableEq

/-- A run of a function: what it returned (`none` if it panicked) and the
calls it made. -/
structure Run (α : Type) where
  result : Option α
  calls : List Call

/-- The results `(aws.CredentialsProvider, string, error)` of
`getCredentialsProvider`. -/
structure Result where
  provider : Option CredentialsProvider
  source : String
  err : Option Error

/-- The option function that `assumeRoleCredentialsProvider` passes to
`stscreds.NewAssumeRoleProvider` (the closure over `ar`). -/
def assumeRoleOptFn (ar : AssumeRole) (opts : AssumeRoleOptions) : AssumeRoleOptions :=
  let opts := { opts with RoleSessionName := ar.SessionName }
  let opts := { opts with Duration := ar.Duration }
  let opts := if ar.ExternalID ≠ "" then { opts with ExternalID := some ar.ExternalID } else opts
  let opts := if ar.Policy ≠ "" then { opts with Policy := some ar.Policy } else opts
  let opts :=
    if ar.PolicyARNs.length > 0 then
      let policyDescriptorTypes : List PolicyDescriptorType :=
        ar.PolicyARNs.foldl
          (fun policyDescriptorTypes policyARN =>
            policyDescriptorTypes ++ [{ Arn := some policyARN }]) []
      { opts with PolicyARNs := some policyDescriptorTypes }
    else opts
  let opts :=
    if ar.Tags.len > 0 then
      let tags : List Tag :=
        ar.Tags.entries.foldl
          (fun tags kv => tags ++ [{ Key := some kv.1, Value := some kv.2 }]) []
      { opts with Tags := some tags }
    else opts
  let opts :=
    if ar.TransitiveTagKeys.length > 0 then
      { opts with TransitiveTagKeys := some ar.TransitiveTagKeys }
    else opts
  opts

/-- `assumeRoleCredentialsProvider`. It panics on a nil `c.AssumeRole`. -/
def assumeRoleCredentialsProvider (w : World) (awsConfig : AwsConfig) (c : Config) :
    Run (Option CredentialsProvider × Option Error) :=
  match c.AssumeRole with
  | none => { result := none, calls := [] }
  | some ar =>
    let calls := [Call.Printf ar.RoleARN ar.SessionName ar.ExternalID]
    let client := w.stsClient awsConfig c
    let appCreds := NewAssumeRoleProvider client ar.RoleARN (assumeRoleOptFn ar)
    let calls := calls ++ [Call.Retrieve appCreds]
    match w.Retrieve appCreds with
    | .error err =>
      { result := some (none, some (NewCannotAssumeRoleError err)), calls := calls }
    | .ok _ =>
      { result := some (some (.CredentialsCache appCreds), none), calls := calls }

/-- The step of `getCredentialsProvider` on the static credentials
(`if c.AccessKey != "" || c.SecretKey != "" || c.Token != ""`): the load
options, followed by the static provider if one of the three values is set. -/
def withStaticCredentials (c : Config) (loadOptions : List LoadOption) : List LoadOption :=
  if c.AccessKey ≠ "" ∨ c.SecretKey ≠ "" ∨ c.Token ≠ "" then
    loadOptions ++
      [.WithCredentialsProvider (.StaticCredentialsProvider c.AccessKey c.SecretKey c.Token)]
  else loadOptions

/-- The second half of `getCredentialsProvider`, from the step on the static
credentials to the end; `loadOptions` and `calls` are what the first half built. -/
def getCredentialsProvider.load (w : World) (c : Config) (loadOptions : List LoadOption)
    (calls : List Call) : Run Result :=
  let loadOptions := withStaticCredentials c loadOptions
  let calls := calls ++ [Call.LoadDefaultConfig loadOptions]
  match w.LoadDefaultConfig loadOptions with
  | .error err =>
    { result := some ⟨none, "", some (.wrapError "loading configuration: %w" err)⟩,
      calls := calls }
  | .ok cfg =>
    let calls := calls ++ [Call.Retrieve cfg.Credentials]
    match w.Retrieve cfg.Credentials with
    | .error err =>
      { result := some ⟨none, "", some (NewNoValidCredentialSourcesError err)⟩, calls := calls }
    | .ok creds =>
      let noRole : Bool :=
        match c.AssumeRole with
        | none => true
        | some ar => ar.RoleARN == ""
      if noRole then
        { result := some ⟨some cfg.Credentials, creds.Source, none⟩, calls := calls }
      else
        let run := assumeRoleCredentialsProvider w cfg c
        { result := run.result.map fun r => ⟨r.1, creds.Source, r.2⟩,
          calls := calls ++ run.calls }

/-- `getCredentialsProvider`. -/
def getCredentialsProvider (w : World) (c : Config) : Run Result :=
  match w.commonLoadOptions c with
  | .error err => { result := some ⟨none, "", some err⟩, calls := [] }
  | .ok loadOptions =>
    let loadOptions := loadOptions ++
      [.WithRetryer .NopRetryer,
       .WithEndpointResolverWithOptions (w.credentialsEndpointResolver c)]
    let calls := [Call.NewEnvConfig]
    match w.NewEnvConfig with
    | .error err => { result := some ⟨none, "", some err⟩, calls := calls }
    | .ok envConfig =>
      let profile := if c.Profile = "" then envConfig.SharedConfigProfile else c.Profile
      match w.ResolveSharedCredentialsFiles c with
      | .error err => { result := some ⟨none, "", some err⟩, calls := calls }
      | .ok sharedCredentialsFiles =>
        let sharedCredentialsFiles :=
          if sharedCredentialsFiles.length = 0 then [envConfig.SharedCredentialsFile]
          else sharedCredentialsFiles
        match w.ResolveSharedConfigFiles c with
        | .error err => { result := some ⟨none, "", some err⟩, calls := calls }
        | .ok sharedConfigFiles =>
          let sharedConfigFiles :=
            if sharedConfigFiles.length = 0 then [envConfig.SharedConfigFile]
            else sharedConfigFiles
          if profile ≠ "" then
            let calls := calls ++
              [Call.LoadSharedConfigProfile profile sharedCredentialsFiles sharedConfigFiles]
            match w.LoadSharedConfigProfile profile sharedCredentialsFiles sharedConfigFiles with
            | .error err => { result := some ⟨none, "", some err⟩, calls := calls }
            | .ok _ =>
              getCredentialsProvider.load w c
                (loadOptions ++ [.WithSharedConfigProfile c.Profile]) calls
          else getCredentialsProvider.load w c loadOptions calls

/-- The assume-role layer was entered: the call is the log line that
`assumeRoleCredentialsProvider` writes before anything else. -/
def Call.isAssumeRole : Call → Bool
  | .Printf _ _ _ => true
  | _ => false

/-- The call belongs to the setup of `getCredentialsProvider`, before the
layered resolution. -/
def Call.isSetup : Call → Bool
  | .NewEnvConfig => true
  | .LoadSharedConfigProfile _ _ _ => true
  | _ => false

/-- A role is to be assumed: `c.AssumeRole` is not nil and its `RoleARN` is not empty. -/
def roleConfigured (c : Config) : Prop :=
  ∃ ar ∈ c.AssumeRole, ar.RoleARN ≠ ""

instance (c : Config) : Decidable (roleConfigured c) := by
  unfold roleConfigured
  infer_instance

/-- The mapping rebuilt from a list of tags, as its lookup function:
`m := map[string]string{}` followed by `m[*t.Key] = *t.Value` for each tag `t`
of the list, in order (a tag with a nil key or value is passed over). -/
def mapOfTags (tags : List Tag) : String → Option String :=
  tags.foldl
    (fun m t =>
      match t.Key, t.Value with
      | some k, some v => fun x => if x = k then some v else m x
      | _, _ => m)
    (fun _ => none)

/-! ### A small world for the concrete instances -/

/-- `Retrieve` in the concrete world. A static provider answers as the SDK's
does (an error when the key or the secret is empty), the cache asks the
provider it wraps, the instance metadata provider answers if `imds` is set,
and a role is assumed if its ARN is the one of `demoRole`. -/
def demoRetrieve (imds : Bool) : CredentialsProvider → Except Error Credentials
  | .StaticCredentialsProvider key secret session =>
    if key = "" ∨ secret = "" then .error (.errorString "static credentials are empty")
    else .ok ⟨key, secret, session, "StaticCredentials"⟩
  | .CredentialsCache provider => demoRetrieve imds provider
  | .AssumeRoleProvider options =>
    if options.RoleARN = "arn:aws:iam::123456789012:role/demo" then
      .ok ⟨"AssumeRoleAccessKey", "AssumeRoleSecretKey", "AssumeRoleSessionToken",
        "AssumeRoleProvider"⟩
    else .error (.GenericAPIError "AccessDenied" "not authorized to perform sts:AssumeRole")
  | .resolved name =>
    if imds = true ∧ name = "EC2RoleProvider" then
      .ok ⟨"Ec2MetadataAccessKey", "Ec2MetadataSecretKey", "Ec2MetadataSessionToken",
        "EC2RoleProvider"⟩
    else .error (.errorString "failed to refresh cached credentials")

/-- The explicit credentials provider among load options, the last one given. -/
def explicitProvider : List LoadOption → Option CredentialsProvider
  | [] => none
  | .WithCredentialsProvider provider :: rest =>
    match explicitProvider rest with
    | some later => some later
    | none => some provider
  | _ :: rest => explicitProvider rest

/-- The concrete world: no environment variables and no shared credentials or
config file on disk, so that no profile can be loaded; `LoadDefaultConfig`
resolves to the explicit provider if there is one and to the instance metadata
provider otherwise, wrapped in the credentials cache. -/
def demoWorld (imds : Bool) : World where
  commonLoadOptions := fun _ => .ok [.common "WithRegion", .common "WithHTTPClient"]
  credentialsEndpointResolver := fun _ => ⟨"credentialsEndpointResolver"⟩
  NewEnvConfig := .ok {}
  ResolveSharedCredentialsFiles := fun c => .ok c.SharedCredentialsFiles
  ResolveSharedConfigFiles := fun c => .ok c.SharedConfigFiles
  LoadSharedConfigProfile := fun profile _ _ =>
    .error (.SharedConfigProfileNotExistError profile none)
  LoadDefaultConfig := fun loadOptions =>
    match explicitProvider loadOptions with
    | some provider => .ok ⟨.CredentialsCache provider⟩
    | none => .ok ⟨.CredentialsCache (.resolved "EC2RoleProvider")⟩
  Retrieve := demoRetrieve imds
  stsClient := fun _ _ => ⟨"sts"⟩

/-- The configuration of `TestAWSGetCredentials_static`, first case. -/
def staticConfig : Config := { AccessKey := "test", SecretKey := "secret" }

/-- The same static credentials, with a profile that no shared file holds. -/
def staticConfigMissingProfile : Config :=
  { AccessKey := "test", SecretKey := "secret", Profile := "missing" }

/-- A role that the concrete world lets be assumed, with every optional field set. -/
def demoRole : AssumeRole :=
  { RoleARN := "arn:aws:iam::123456789012:role/demo",
    SessionName := "session",
    ExternalID := "external",
    Duration := 3600000000000,
    Policy := "session-policy-document",
    PolicyARNs := ["arn:aws:iam::aws:policy/ReadOnlyAccess", "arn:aws:iam::aws:policy/job"],
    Tags := ⟨[("team", "core"), ("env", "test")], by decide⟩,
    TransitiveTagKeys := ["team"] }

/-- A role that the concrete world refuses. -/
def deniedRole : AssumeRole := { RoleARN := "arn:aws:iam::123456789012:role/denied" }

/-! ### The world of `TestAWSGetCredentials_sharedCredentialsFile`

The environment holds `AWS_PROFILE=myprofile` and
`AWS_SHARED_CREDENTIALS_FILE=/tmp/terraform_aws_cred`, a file whose one
section `[myprofile]` holds `accesskey1` and `secretkey1`; no config file is
named and none exists. -/

/-- The credentials file that the environment names. -/
def envCredentialsFile : String := "/tmp/terraform_aws_cred"

/-- The profile that a list of load options names: the value of the last
`WithSharedConfigProfile` that is not empty, the empty string if there is none
(the SDK takes an empty value for an option that is not set). -/
def profileOption : List LoadOption → String
  | [] => ""
  | .WithSharedConfigProfile profile :: rest =>
    if profileOption rest = "" then profile else profileOption rest
  | _ :: rest => profileOption rest

/-- `Retrieve` in this world: the provider of the shared credentials file
answers with the key pair of the file; the others answer as in the world
without instance metadata. -/
def envProfileRetrieve : CredentialsProvider → Except Error Credentials
  | .CredentialsCache provider => envProfileRetrieve provider
  | .resolved name =>
    if name = "SharedConfigCredentials: /tmp/terraform_aws_cred" then
      .ok ⟨"accesskey1", "secretkey1", "", name⟩
    else .error (.errorString "failed to refresh cached credentials")
  | provider => demoRetrieve false provider

/-- The world of the test. A profile is loaded only if it is `myprofile` and
the credentials file of the environment is among the credentials files given.
`LoadDefaultConfig` resolves to the explicit provider if there is one;
otherwise it reads the profile named by the options or, failing that, by the
environment, from the credentials file of the environment. -/
def envProfileWorld : World where
  commonLoadOptions := fun _ => .ok [.common "WithRegion", .common "WithHTTPClient"]
  credentialsEndpointResolver := fun _ => ⟨"credentialsEndpointResolver"⟩
  NewEnvConfig := .ok { SharedConfigProfile := "myprofile",
                        SharedCredentialsFile := envCredentialsFile }
  ResolveSharedCredentialsFiles := fun c => .ok c.SharedCredentialsFiles
  ResolveSharedConfigFiles := fun c => .ok c.SharedConfigFiles
  LoadSharedConfigProfile := fun profile credentialsFiles _ =>
    if profile = "myprofile" ∧ envCredentialsFile ∈ credentialsFiles then .ok ()
    else .error (.SharedConfigProfileNotExistError profile none)
  LoadDefaultConfig := fun loadOptions =>
    match explicitProvider loadOptions with
    | some provider => .ok ⟨.CredentialsCache provider⟩
    | none =>
      if profileOption loadOptions = "" ∨ profileOption loadOptions = "myprofile" then
        .ok ⟨.CredentialsCache (.resolved "SharedConfigCredentials: /tmp/terraform_aws_cred")⟩
      else .error (.SharedConfigProfileNotExistError (profileOption loadOptions) none)
  Retrieve := envProfileRetrieve
  stsClient := fun _ _ => ⟨"sts"⟩

/-! ## internal/config/user_agent.go -/

namespace config

/-- The struct `UserAgentProduct` of package `config`. Its declaration is not
among the sources; the three string fields are those that `user_agent.go`
reads and that `context_test.go` sets. -/
structure UserAgentProduct where
  Name : String := ""
  Version : String := ""
  Comment : String := ""
  deriving DecidableEq

/-- The type `UserAgentProducts`, a slice of products. -/
abbrev UserAgentProducts := List UserAgentProduct

/-- The `UserAgentBuilder` of the library smithy-go (`transport/http`): a
`strings.Builder`, by the text written to it so far. -/
structure UserAgentBuilder where
  sb : String
  deriving DecidableEq

/-- `smithyhttp.NewUserAgentBuilder()`. -/
def NewUserAgentBuilder : UserAgentBuilder := ⟨""⟩

namespace UserAgentBuilder

/-- The method `appendTo` of the library: a blank is written first when
`sb.Len() > 0`, then the value. (`Len` counts bytes; it is positive exactly
when the text has a character.) -/
def appendTo (u : UserAgentBuilder) (value : String) : UserAgentBuilder :=
  let u : UserAgentBuilder := if u.sb.length > 0 then ⟨u.sb ++ " "⟩ else u
  ⟨u.sb ++ value⟩

/-- The method `AddKey` of the library. -/
def AddKey (u : UserAgentBuilder) (key : String) : UserAgentBuilder :=
  u.appendTo key

/-- The method `AddKeyValue` of the library. -/
def AddKeyValue (u : UserAgentBuilder) (key value : String) : UserAgentBuilder :=
  u.appendTo (key ++ "/" ++ value)

/-- The method `Build` of the library. -/
def Build (u : UserAgentBuilder) : String := u.sb

end UserAgentBuilder

/-- `UserAgentProduct.buildUserAgentPart`; the builder, passed by pointer in
the source, is passed and returned. -/
def UserAgentProduct.buildUserAgentPart (p : UserAgentProduct) (b : UserAgentBuilder) :
    UserAgentBuilder :=
  let b :=
    if p.Name ≠ "" then
      if p.Version ≠ "" then b.AddKeyValue p.Name p.Version
      else b.AddKey p.Name
    else b
  if p.Comment ≠ "" then b.AddKey ("(" ++ p.Comment ++ ")") else b

/-- `UserAgentProducts.BuildUserAgentString`. -/
def BuildUserAgentString (ua : UserAgentProducts) : String :=
  let builder := ua.foldl (fun builder p => p.buildUserAgentPart builder) NewUserAgentBuilder
  builder.Build

/-- The parts that a product contributes: `Name/Version` or `Name` for a
non-empty name, then `(Comment)` for a non-empty comment. -/
def userAgentParts (p : UserAgentProduct) : List String :=
  (if p.Name = "" then []
    else if p.Version = "" then [p.Name] else [p.Name ++ "/" ++ p.Version]) ++
  (if p.Comment = "" then [] else ["(" ++ p.Comment ++ ")"])

end config

/-! # Theorems -/

namespace GoMap

variable {V : Type}

theorem get?_eq_some_mem (m : GoMap V) (k : String) (v : V) (h : m.get? k = some v) :
    (k, v) ∈ m.entries := by
  unfold get? at h
  cases hf : m.entries.find? (fun kv => kv.1 == k) with
  | none => simp [hf] at h
  | some kv =>
    simp only [hf, Option.map_some', Option.some.injEq] at h
    have hk := List.find?_some hf
    have hm := List.mem_of_find?_eq_some hf
    simp only [beq_iff_eq] at hk
    obtain ⟨a, b⟩ := kv
    simp only at hk h
    subst hk; subst h
    exact hm

theorem get?_eq_some_of_mem (m : GoMap V) (k : String) (v : V) (h : (k, v) ∈ m.entries) :
    m.get? k = some v := by
  obtain ⟨l, hn⟩ := m
  unfold get?
  simp only at h ⊢
  induction l with
  | nil => exact absurd h (List.not_mem_nil _)
  | cons hd tl ih =>
    rw [List.map_cons, List.nodup_cons] at hn
    rcases List.mem_cons.1 h with heq | hmem
    · rw [← heq]
      simp
    · have hne : hd.1 ≠ k := by
        intro hk
        exact hn.1 (hk ▸ List.mem_map_of_mem Prod.fst hmem)
      rw [List.find?_cons_of_neg _ (by simpa using hne)]
      exact ih hn.2 hmem

theorem get?_isSome_iff (m : GoMap V) (k : String) :
    (m.get? k).isSome = true ↔ k ∈ m.keys := by
  unfold get? keys
  simp only [Option.isSome_map', List.find?_isSome, beq_iff_eq, List.mem_map]

end GoMap

namespace endpoints

section
variable {Regexp : Type}

theorem DefaultPartitions_eq_append (partitionsAndRegions : PartitionTable Regexp) :
    DefaultPartitions partitionsAndRegions =
      List.replicate partitionsAndRegions.len Partition.zero ++
        partitionsAndRegions.entries.map (fun kv => kv.2.partition) := by
  unfold DefaultPartitions
  generalize List.replicate partitionsAndRegions.len (Partition.zero : Partition Regexp) = acc
  induction partitionsAndRegions.entries generalizing acc with
  | nil => simp
  | cons kv rest ih => simp [List.foldl_cons, ih]

/-- One step of the loop of `PartitionForRegion` on an element that does not
include the region: the loop goes on with the rest of the list. -/
theorem PartitionForRegion_skip (MatchString : Regexp → String → Bool)
    (tbl : PartitionTable Regexp) (hre : regexCompiled tbl)
    (q : Partition Regexp) (ps : List (Partition Regexp)) (r : String)
    (hq : ¬ includesRegion MatchString tbl r q) :
    PartitionForRegion MatchString tbl (q :: ps) r = PartitionForRegion MatchString tbl ps r := by
  rw [PartitionForRegion]
  cases hg : tbl.get? q.id with
  | none => rfl
  | some e =>
    have hmem := GoMap.get?_eq_some_mem tbl q.id e hg
    have hkey : (e.regions.get? r).isSome = false := by
      by_contra hc
      simp only [Bool.not_eq_false] at hc
      exact hq ⟨(q.id, e), hmem, rfl, Or.inl ((GoMap.get?_isSome_iff _ _).1 hc)⟩
    simp only [hkey, Bool.false_eq_true, if_false]
    cases hx : e.partition.regionRegex with
    | none => exact absurd hx (hre (q.id, e) hmem)
    | some re =>
      have hm : MatchString re r = false := by
        by_contra hc
        simp only [Bool.not_eq_false] at hc
        exact hq ⟨(q.id, e), hmem, rfl, Or.inr ⟨re, hx, hc⟩⟩
      simp [hm]

/-- One step of the loop of `PartitionForRegion` on an element that includes
the region: the element is returned. -/
theorem PartitionForRegion_hit (MatchString : Regexp → String → Bool)
    (tbl : PartitionTable Regexp)
    (p : Partition Regexp) (ps : List (Partition Regexp)) (r : String)
    (hp : includesRegion MatchString tbl r p) :
    PartitionForRegion MatchString tbl (p :: ps) r = some (p, true) := by
  obtain ⟨⟨k, e⟩, hmem, hk, h⟩ := hp
  simp only at hk h
  have hg := GoMap.get?_eq_some_of_mem tbl k e hmem
  rw [hk] at hg
  rw [PartitionForRegion, hg]
  simp only
  rcases h with hkey | ⟨re, hx, hm⟩
  · simp [(GoMap.get?_isSome_iff _ _).2 hkey]
  · by_cases hk : (e.regions.get? r).isSome = true
    · simp [hk]
    · have hx2 : e.partition.regionRegex = some re := hx
      simp [hk, hx2, hm]

theorem PartitionForRegion_skip_all (MatchString : Regexp → String → Bool)
    (tbl : PartitionTable Regexp) (hre : regexCompiled tbl)
    (pre ps : List (Partition Regexp)) (r : String)
    (hpre : ∀ q ∈ pre, ¬ includesRegion MatchString tbl r q) :
    PartitionForRegion MatchString tbl (pre ++ ps) r = PartitionForRegion MatchString tbl ps r := by
  induction pre with
  | nil => rfl
  | cons q pre ih =>
    rw [List.cons_append, PartitionForRegion_skip MatchString tbl hre q _ r
      (hpre q (List.mem_cons_self _ _))]
    exact ih (fun x hx => hpre x (List.mem_cons_of_mem _ hx))

/-- C7: on a table whose partitions carry a compiled expression,
`PartitionForRegion ps r` returns `(p, true)` for the first element `p` of `ps`,
in list order, for which the table entry found under `p.id` has `r` as a key of
its regions or has a regular expression matching `r`; it returns the zero
`Partition` with `false` (a plain value, no error and no panic) exactly when no
element of `ps` is such. -/
theorem PartitionForRegion_first_match (MatchString : Regexp → String → Bool)
    (tbl : PartitionTable Regexp) (hre : regexCompiled tbl)
    (ps : List (Partition Regexp)) (r : String) :
    ((∃ pre p post, ps = pre ++ p :: post ∧
        (∀ q ∈ pre, ¬ includesRegion MatchString tbl r q) ∧
        includesRegion MatchString tbl r p ∧
        PartitionForRegion MatchString tbl ps r = some (p, true)) ∨
      ((∀ q ∈ ps, ¬ includesRegion MatchString tbl r q) ∧
        PartitionForRegion MatchString tbl ps r = some (Partition.zero, false))) ∧
    (PartitionForRegion MatchString tbl ps r = some (Partition.zero, false) ↔
      ∀ q ∈ ps, ¬ includesRegion MatchString tbl r q) := by
  have key : ∀ l : List (Partition Regexp),
      (∃ pre p post, l = pre ++ p :: post ∧
        (∀ q ∈ pre, ¬ includesRegion MatchString tbl r q) ∧
        includesRegion MatchString tbl r p ∧
        PartitionForRegion MatchString tbl l r = some (p, true)) ∨
      ((∀ q ∈ l, ¬ includesRegion MatchString tbl r q) ∧
        PartitionForRegion MatchString tbl l r = some (Partition.zero, false)) := by
    intro l
    induction l with
    | nil =>
      right
      exact ⟨fun q hq => absurd hq (List.not_mem_nil q), rfl⟩
    | cons x l ih =>
      by_cases hx : includesRegion MatchString tbl r x
      · left
        exact ⟨[], x, l, rfl, fun q hq => absurd hq (List.not_mem_nil q), hx,
          PartitionForRegion_hit MatchString tbl x l r hx⟩
      · rw [PartitionForRegion_skip MatchString tbl hre x l r hx]
        rcases ih with ⟨pre, p, post, hl, hpre, hp, hres⟩ | ⟨hall, hres⟩
        · left
          refine ⟨x :: pre, p, post, by rw [hl, List.cons_append], ?_, hp, hres⟩
          intro q hq
          rcases List.mem_cons.1 hq with rfl | hq
          · exact hx
          · exact hpre q hq
        · right
          refine ⟨?_, hres⟩
          intro q hq
          rcases List.mem_cons.1 hq with rfl | hq
          · exact hx
          · exact hall q hq
  refine ⟨key ps, ?_⟩
  constructor
  · intro hres
    rcases key ps with ⟨pre, p, post, _, _, _, hres2⟩ | ⟨hall, _⟩
    · rw [hres2] at hres
      simp at hres
    · exact hall
  · intro hall
    rcases key ps with ⟨pre, p, post, hl, _, hp, _⟩ | ⟨_, hres⟩
    · exact absurd hp (hall p (by rw [hl]; simp))
    · exact hres

/-- Witness of C7 on the two-partition table, for the list `[gov, aws]` and
the region id `us-west-2`. -/
theorem PartitionForRegion_first_match_witness :
    regexCompiled demoTable ∧
    (((∃ pre p post, [govPartition, awsPartition] = pre ++ p :: post ∧
        (∀ q ∈ pre, ¬ includesRegion demoMatch demoTable "us-west-2" q) ∧
        includesRegion demoMatch demoTable "us-west-2" p ∧
        PartitionForRegion demoMatch demoTable [govPartition, awsPartition] "us-west-2"
          = some (p, true)) ∨
      ((∀ q ∈ [govPartition, awsPartition],
          ¬ includesRegion demoMatch demoTable "us-west-2" q) ∧
        PartitionForRegion demoMatch demoTable [govPartition, awsPartition] "us-west-2"
          = some (Partition.zero, false))) ∧
    (PartitionForRegion demoMatch demoTable [govPartition, awsPartition] "us-west-2"
        = some (Partition.zero, false) ↔
      ∀ q ∈ [govPartition, awsPartition],
        ¬ includesRegion demoMatch demoTable "us-west-2" q)) :=
  ⟨by decide,
   PartitionForRegion_first_match demoMatch demoTable (by decide)
     [govPartition, awsPartition] "us-west-2"⟩

/-- C8, as stated, fails: `us-gov-west-1` is a key of the regions of the second
element of the list, yet the call returns the first element, whose expression
matches the id. -/
theorem PartitionForRegion_exact_key_shadowed :
    govPartition ∈ [awsPartition, govPartition] ∧
    hasRegionKey demoTable "us-gov-west-1" govPartition ∧
    PartitionForRegion demoMatch demoTable [awsPartition, govPartition] "us-gov-west-1"
      = some (awsPartition, true) ∧
    PartitionForRegion demoMatch demoTable [awsPartition, govPartition] "us-gov-west-1"
      ≠ some (govPartition, true) := by
  decide

/-- C8, amended: if `r` is a key of the regions that the table holds for an
element `p` of the list, and no element before `p` includes `r` (by key or by
expression), then `p` is returned with `true`, whatever `p`'s regular
expression says about `r`. -/
theorem PartitionForRegion_exact_key (MatchString : Regexp → String → Bool)
    (tbl : PartitionTable Regexp) (hre : regexCompiled tbl)
    (pre post : List (Partition Regexp)) (p : Partition Regexp) (r : String)
    (hkey : hasRegionKey tbl r p)
    (hpre : ∀ q ∈ pre, ¬ includesRegion MatchString tbl r q) :
    PartitionForRegion MatchString tbl (pre ++ p :: post) r = some (p, true) := by
  rw [PartitionForRegion_skip_all MatchString tbl hre pre (p :: post) r hpre]
  obtain ⟨kv, hmem, hid, hk⟩ := hkey
  exact PartitionForRegion_hit MatchString tbl p post r ⟨kv, hmem, hid, Or.inl hk⟩

/-- Witness of the amended C8: `fips-gov` is listed for the second partition,
whose expression does not match it, and the first partition does not include it. -/
theorem PartitionForRegion_exact_key_witness :
    regexCompiled demoTable ∧
    hasRegionKey demoTable "fips-gov" govPartition ∧
    (∀ q ∈ [awsPartition], ¬ includesRegion demoMatch demoTable "fips-gov" q) ∧
    demoMatch "us-gov-" "fips-gov" = false ∧
    PartitionForRegion demoMatch demoTable ([awsPartition] ++ govPartition :: []) "fips-gov"
      = some (govPartition, true) :=
  have h1 : regexCompiled demoTable := by decide
  have h2 : hasRegionKey demoTable "fips-gov" govPartition := by decide
  have h3 : ∀ q ∈ [awsPartition], ¬ includesRegion demoMatch demoTable "fips-gov" q := by
    decide
  ⟨h1, h2, h3, by decide,
    PartitionForRegion_exact_key demoMatch demoTable h1 [awsPartition] [] govPartition
      "fips-gov" h2 h3⟩

/-- C10 fails on the code: for every table, `DefaultPartitions` returns twice
as many elements as the table has partitions, the first half being zero-valued
`Partition`s; on the two-partition table it returns four elements. -/
theorem DefaultPartitions_has_zero_values :
    (∀ (Regexp : Type) (tbl : PartitionTable Regexp),
      DefaultPartitions tbl =
        List.replicate tbl.len Partition.zero ++ tbl.entries.map (fun kv => kv.2.partition) ∧
      (DefaultPartitions tbl).length = 2 * tbl.len) ∧
    DefaultPartitions demoTable =
      [Partition.zero, Partition.zero, awsPartition, govPartition] ∧
    demoTable.len = 2 := by
  refine ⟨fun Regexp tbl => ⟨DefaultPartitions_eq_append tbl, ?_⟩, by decide, by decide⟩
  rw [DefaultPartitions_eq_append]
  simp [GoMap.len]
  omega

end

end endpoints

/-! ## Error classification -/

theorem ErrCodeEquals_iff_chain (err : Option Error) (codes : List String) :
    ErrCodeEquals err codes = true ↔
      ∃ e ∈ errorChain err, ∃ code, e.ErrorCode = some code ∧ code ∈ codes := by
  unfold ErrCodeEquals
  rw [List.any_eq_true]
  constructor
  · rintro ⟨e, he, h⟩
    cases hc : e.ErrorCode with
    | none => simp [hc] at h
    | some code =>
      simp only [hc, List.any_eq_true, beq_iff_eq] at h
      obtain ⟨c, hmem, hcc⟩ := h
      exact ⟨e, he, c, by rw [hc, hcc], hmem⟩
  · rintro ⟨e, he, code, hc, hmem⟩
    refine ⟨e, he, ?_⟩
    simp only [hc, List.any_eq_true, beq_iff_eq]
    exact ⟨code, hmem, rfl⟩

/-- C9: `ErrCodeEquals err codes` holds exactly when some error of the wrap
chain of `err`, at any depth, is a service API error (generic, or the typed
STS `ExpiredTokenException`) whose code is one of `codes`, compared as strings,
case included. It is false for the nil error, for the empty list of codes, and
for a `CannotAssumeRoleError` that wraps nothing. -/
theorem ErrCodeEquals_spec :
    (∀ (err : Option Error) (codes : List String),
      ErrCodeEquals err codes = true ↔
        ∃ e ∈ errorChain err, ∃ code, e.ErrorCode = some code ∧ code ∈ codes) ∧
    (∀ codes, ErrCodeEquals none codes = false) ∧
    (∀ err, ErrCodeEquals err [] = false) ∧
    (∀ codes, ErrCodeEquals (some (.CannotAssumeRoleError none)) codes = false) ∧
    (∀ (format : String) (codeOverride : String) (message : Option String),
      ErrCodeEquals
        (some (.wrapError format (.ExpiredTokenException (some codeOverride) message)))
        ["NotMatching", codeOverride] = true) ∧
    ErrCodeEquals (some (.wrapError "test: %w" (.GenericAPIError "TestCode" "TestMessage")))
      ["testcode", "TESTCODE"] = false := by
  refine ⟨ErrCodeEquals_iff_chain, fun codes => rfl, ?_, fun codes => rfl, ?_, by decide⟩
  · intro err
    cases h : ErrCodeEquals err [] with
    | false => rfl
    | true =>
      obtain ⟨e, _, code, _, hmem⟩ := (ErrCodeEquals_iff_chain err []).1 h
      exact absurd hmem (List.not_mem_nil code)
  · intro format codeOverride message
    simp [ErrCodeEquals, errorChain, Error.chain, Error.ErrorCode]

/-! ## Credential resolution -/

theorem assumeRoleCredentialsProvider_some (w : World) (awsConfig : AwsConfig) (c : Config)
    (ar : AssumeRole) (har : c.AssumeRole = some ar) :
    (assumeRoleCredentialsProvider w awsConfig c).calls =
      [Call.Printf ar.RoleARN ar.SessionName ar.ExternalID,
        Call.Retrieve
          (NewAssumeRoleProvider (w.stsClient awsConfig c) ar.RoleARN (assumeRoleOptFn ar))] ∧
    (assumeRoleCredentialsProvider w awsConfig c).result =
      match w.Retrieve
          (NewAssumeRoleProvider (w.stsClient awsConfig c) ar.RoleARN (assumeRoleOptFn ar)) with
      | .error err => some (none, some (NewCannotAssumeRoleError err))
      | .ok _ =>
        some (some (.CredentialsCache
          (NewAssumeRoleProvider (w.stsClient awsConfig c) ar.RoleARN (assumeRoleOptFn ar))),
          none) := by
  unfold assumeRoleCredentialsProvider
  rw [har]
  simp only
  cases w.Retrieve
    (NewAssumeRoleProvider (w.stsClient awsConfig c) ar.RoleARN (assumeRoleOptFn ar)) with
  | error err => exact ⟨rfl, rfl⟩
  | ok creds => exact ⟨rfl, rfl⟩

/-- The setup of `getCredentialsProvider` either fails, having made setup calls
only, or hands over to the second half. -/
theorem getCredentialsProvider_setup (w : World) (c : Config) :
    (∃ err calls, getCredentialsProvider w c = ⟨some ⟨none, "", some err⟩, calls⟩ ∧
      ∀ x ∈ calls, x.isSetup = true) ∨
    (∃ loadOptions calls, getCredentialsProvider w c =
        getCredentialsProvider.load w c loadOptions calls ∧
      ∀ x ∈ calls, x.isSetup = true) := by
  unfold getCredentialsProvider
  cases w.commonLoadOptions c with
  | error err => exact Or.inl ⟨err, [], rfl, by simp⟩
  | ok loadOptions =>
    cases w.NewEnvConfig with
    | error err => exact Or.inl ⟨err, _, rfl, by simp [Call.isSetup]⟩
    | ok envConfig =>
      cases w.ResolveSharedCredentialsFiles c with
      | error err => exact Or.inl ⟨err, _, rfl, by simp [Call.isSetup]⟩
      | ok sharedCredentialsFiles =>
        cases w.ResolveSharedConfigFiles c with
        | error err => exact Or.inl ⟨err, _, rfl, by simp [Call.isSetup]⟩
        | ok sharedConfigFiles =>
          simp only
          by_cases hp : (if c.Profile = "" then envConfig.SharedConfigProfile else c.Profile) ≠ ""
          · rw [if_pos hp]
            split
            · rename_i err _
              exact Or.inl ⟨err, _, rfl, by simp [Call.isSetup]⟩
            · exact Or.inr ⟨_, _, rfl, by simp [Call.isSetup]⟩
          · rw [if_neg hp]
            exact Or.inr ⟨_, _, rfl, by simp [Call.isSetup]⟩


theorem noRole_iff (c : Config) :
    (match c.AssumeRole with
      | none => true
      | some ar => ar.RoleARN == "") = true ↔ ¬ roleConfigured c := by
  unfold roleConfigured
  cases c.AssumeRole with
  | none => simp
  | some ar => simp

/-- The four ways through the second half of `getCredentialsProvider`. -/
theorem getCredentialsProvider_load_cases (w : World) (c : Config)
    (loadOptions : List LoadOption) (calls : List Call) :
    (∃ err, w.LoadDefaultConfig (withStaticCredentials c loadOptions) = .error err ∧
      getCredentialsProvider.load w c loadOptions calls =
        ⟨some ⟨none, "", some (.wrapError "loading configuration: %w" err)⟩,
          calls ++ [Call.LoadDefaultConfig (withStaticCredentials c loadOptions)]⟩) ∨
    (∃ cfg err, w.LoadDefaultConfig (withStaticCredentials c loadOptions) = .ok cfg ∧
      w.Retrieve cfg.Credentials = .error err ∧
      getCredentialsProvider.load w c loadOptions calls =
        ⟨some ⟨none, "", some (NewNoValidCredentialSourcesError err)⟩,
          calls ++ [Call.LoadDefaultConfig (withStaticCredentials c loadOptions)] ++
            [Call.Retrieve cfg.Credentials]⟩) ∨
    (∃ cfg creds, w.LoadDefaultConfig (withStaticCredentials c loadOptions) = .ok cfg ∧
      w.Retrieve cfg.Credentials = .ok creds ∧ ¬ roleConfigured c ∧
      getCredentialsProvider.load w c loadOptions calls =
        ⟨some ⟨some cfg.Credentials, creds.Source, none⟩,
          calls ++ [Call.LoadDefaultConfig (withStaticCredentials c loadOptions)] ++
            [Call.Retrieve cfg.Credentials]⟩) ∨
    (∃ cfg creds, w.LoadDefaultConfig (withStaticCredentials c loadOptions) = .ok cfg ∧
      w.Retrieve cfg.Credentials = .ok creds ∧ roleConfigured c ∧
      getCredentialsProvider.load w c loadOptions calls =
        ⟨(assumeRoleCredentialsProvider w cfg c).result.map
            fun r => ⟨r.1, creds.Source, r.2⟩,
          calls ++ [Call.LoadDefaultConfig (withStaticCredentials c loadOptions)] ++
            [Call.Retrieve cfg.Credentials] ++ (assumeRoleCredentialsProvider w cfg c).calls⟩) := by
  unfold getCredentialsProvider.load
  simp only
  cases hl : w.LoadDefaultConfig (withStaticCredentials c loadOptions) with
  | error err => exact Or.inl ⟨err, rfl, rfl⟩
  | ok cfg =>
    right
    simp only
    cases hr : w.Retrieve cfg.Credentials with
    | error err => exact Or.inl ⟨cfg, err, rfl, hr, rfl⟩
    | ok creds =>
      right
      simp only
      by_cases hrole : roleConfigured c
      · right
        refine ⟨cfg, creds, rfl, hr, hrole, ?_⟩
        have hno := (noRole_iff c).not.2 (not_not.2 hrole)
        rw [if_neg hno]
      · left
        refine ⟨cfg, creds, rfl, hr, hrole, ?_⟩
        have hno := (noRole_iff c).2 hrole
        rw [if_pos hno]

theorem assumeRoleCredentialsProvider_calls (w : World) (awsConfig : AwsConfig) (c : Config) :
    ∀ x ∈ (assumeRoleCredentialsProvider w awsConfig c).calls,
      x.isSetup = false ∧ ∀ opts, x ≠ Call.LoadDefaultConfig opts := by
  intro x hx
  cases har : c.AssumeRole with
  | none =>
    unfold assumeRoleCredentialsProvider at hx
    rw [har] at hx
    exact absurd hx (List.not_mem_nil x)
  | some ar =>
    rw [(assumeRoleCredentialsProvider_some w awsConfig c ar har).1] at hx
    simp only [List.mem_cons, List.mem_singleton, List.not_mem_nil, or_false] at hx
    rcases hx with rfl | rfl
    · exact ⟨rfl, fun opts h => Call.noConfusion h⟩
    · exact ⟨rfl, fun opts h => Call.noConfusion h⟩

/-- The calls of the second half: those made before, the one call of
`LoadDefaultConfig`, and calls that are neither setup calls nor a second
`LoadDefaultConfig`. -/
theorem getCredentialsProvider_load_calls (w : World) (c : Config)
    (loadOptions : List LoadOption) (calls : List Call) :
    ∃ rest, (getCredentialsProvider.load w c loadOptions calls).calls =
        calls ++ Call.LoadDefaultConfig (withStaticCredentials c loadOptions) :: rest ∧
      ∀ x ∈ rest, x.isSetup = false ∧ ∀ opts, x ≠ Call.LoadDefaultConfig opts := by
  rcases getCredentialsProvider_load_cases w c loadOptions calls with
    ⟨err, _, h⟩ | ⟨cfg, err, _, _, h⟩ | ⟨cfg, creds, _, _, _, h⟩ | ⟨cfg, creds, _, _, _, h⟩
  · exact ⟨[], by rw [h], by simp⟩
  · refine ⟨[Call.Retrieve cfg.Credentials], by rw [h]; simp, ?_⟩
    intro x hx
    rw [List.mem_singleton] at hx
    subst hx
    exact ⟨rfl, fun opts h => Call.noConfusion h⟩
  · refine ⟨[Call.Retrieve cfg.Credentials], by rw [h]; simp, ?_⟩
    intro x hx
    rw [List.mem_singleton] at hx
    subst hx
    exact ⟨rfl, fun opts h => Call.noConfusion h⟩
  · refine ⟨Call.Retrieve cfg.Credentials :: (assumeRoleCredentialsProvider w cfg c).calls,
      by rw [h]; simp, ?_⟩
    intro x hx
    rcases List.mem_cons.1 hx with rfl | hx
    · exact ⟨rfl, fun opts h => Call.noConfusion h⟩
    · exact assumeRoleCredentialsProvider_calls w cfg c x hx

/-- A run that calls `LoadDefaultConfig` went through the second half, and the
options of the call are those of the setup with the static step applied. -/
theorem getCredentialsProvider_reaches_load (w : World) (c : Config) (opts : List LoadOption)
    (hcall : Call.LoadDefaultConfig opts ∈ (getCredentialsProvider w c).calls) :
    ∃ loadOptions calls,
      getCredentialsProvider w c = getCredentialsProvider.load w c loadOptions calls ∧
      (∀ x ∈ calls, x.isSetup = true) ∧ opts = withStaticCredentials c loadOptions := by
  rcases getCredentialsProvider_setup w c with ⟨err, calls, h, hs⟩ | ⟨lo, calls, h, hs⟩
  · rw [h] at hcall
    exact absurd (hs _ hcall) (by simp [Call.isSetup])
  · refine ⟨lo, calls, h, hs, ?_⟩
    obtain ⟨rest, hc, hrest⟩ := getCredentialsProvider_load_calls w c lo calls
    rw [h, hc, List.mem_append, List.mem_cons] at hcall
    rcases hcall with hin | heq | hin
    · exact absurd (hs _ hin) (by simp [Call.isSetup])
    · exact Call.LoadDefaultConfig.inj heq
    · exact absurd rfl ((hrest _ hin).2 opts)

theorem isAssumeRole_of_isSetup (x : Call) (h : x.isSetup = true) : x.isAssumeRole = false := by
  cases x <;> simp_all [Call.isSetup, Call.isAssumeRole]

/-- A failed pre-validation ends the call: the run is the error of
`LoadSharedConfigProfile`, as it is, after the two setup calls. -/
theorem getCredentialsProvider_prevalidation_stops (w : World) (c : Config)
    (profile : String) (credentialsFiles configFiles : List String) (e : Error)
    (hcall : Call.LoadSharedConfigProfile profile credentialsFiles configFiles ∈
      (getCredentialsProvider w c).calls)
    (hfail : w.LoadSharedConfigProfile profile credentialsFiles configFiles = .error e) :
    getCredentialsProvider w c =
      ⟨some ⟨none, "", some e⟩,
        [Call.NewEnvConfig,
          Call.LoadSharedConfigProfile profile credentialsFiles configFiles]⟩ := by
  unfold getCredentialsProvider at hcall ⊢
  cases h1 : w.commonLoadOptions c with
  | error err => simp [h1] at hcall
  | ok loadOptions =>
    cases h2 : w.NewEnvConfig with
    | error err => simp [h1, h2] at hcall
    | ok envConfig =>
      cases h3 : w.ResolveSharedCredentialsFiles c with
      | error err => simp [h1, h2, h3] at hcall
      | ok sharedCredentialsFiles =>
        cases h4 : w.ResolveSharedConfigFiles c with
        | error err => simp [h1, h2, h3, h4] at hcall
        | ok sharedConfigFiles =>
          simp only [h1, h2, h3, h4] at hcall ⊢
          by_cases hp : (if c.Profile = "" then envConfig.SharedConfigProfile else c.Profile) ≠ ""
          · rw [if_pos hp] at hcall ⊢
            cases h5 : w.LoadSharedConfigProfile
                (if c.Profile = "" then envConfig.SharedConfigProfile else c.Profile)
                (if sharedCredentialsFiles.length = 0 then [envConfig.SharedCredentialsFile]
                  else sharedCredentialsFiles)
                (if sharedConfigFiles.length = 0 then [envConfig.SharedConfigFile]
                  else sharedConfigFiles) with
            | error err =>
              simp only [h5] at hcall ⊢
              simp only [List.singleton_append, List.mem_cons, List.mem_singleton,
                List.not_mem_nil, or_false, false_or, Call.LoadSharedConfigProfile.injEq,
                reduceCtorEq] at hcall
              obtain ⟨hpr, hf1, hf2⟩ := hcall
              subst hpr hf1 hf2
              rw [h5] at hfail
              cases hfail
              rfl
            | ok u =>
              simp only [h5] at hcall
              obtain ⟨rest, hc, hrest⟩ := getCredentialsProvider_load_calls w c
                (loadOptions ++
                  [LoadOption.WithRetryer Retryer.NopRetryer,
                    LoadOption.WithEndpointResolverWithOptions (w.credentialsEndpointResolver c)]
                  ++ [LoadOption.WithSharedConfigProfile c.Profile])
                ([Call.NewEnvConfig] ++
                  [Call.LoadSharedConfigProfile
                    (if c.Profile = "" then envConfig.SharedConfigProfile else c.Profile)
                    (if sharedCredentialsFiles.length = 0 then [envConfig.SharedCredentialsFile]
                      else sharedCredentialsFiles)
                    (if sharedConfigFiles.length = 0 then [envConfig.SharedConfigFile]
                      else sharedConfigFiles)])
              rw [hc] at hcall
              simp only [List.singleton_append, List.cons_append, List.nil_append,
                List.mem_cons, reduceCtorEq, false_or,
                Call.LoadSharedConfigProfile.injEq] at hcall
              rcases hcall with ⟨hpr, hf1, hf2⟩ | hin
              · subst hpr hf1 hf2
                rw [h5] at hfail
                cases hfail
              · exact absurd (hrest _ hin).1 (by simp [Call.isSetup])
          · rw [if_neg hp] at hcall
            obtain ⟨rest, hc, hrest⟩ := getCredentialsProvider_load_calls w c
              (loadOptions ++
                [LoadOption.WithRetryer Retryer.NopRetryer,
                  LoadOption.WithEndpointResolverWithOptions (w.credentialsEndpointResolver c)])
              [Call.NewEnvConfig]
            rw [hc] at hcall
            simp only [List.singleton_append, List.mem_cons, reduceCtorEq, false_or] at hcall
            exact absurd (hrest _ hcall).1 (by simp [Call.isSetup])


/-- C1, as stated, fails: with the same static key and secret and in the same
world, the call succeeds with the static credentials when no profile is named
and fails when the configuration names a profile that the shared files lack. -/
theorem getCredentialsProvider_static_depends_on_profile :
    staticConfigMissingProfile = { staticConfig with Profile := "missing" } ∧
    (getCredentialsProvider (demoWorld true) staticConfig).result =
      some ⟨some (.CredentialsCache (.StaticCredentialsProvider "test" "secret" "")),
        "StaticCredentials", none⟩ ∧
    (getCredentialsProvider (demoWorld true) staticConfigMissingProfile).result =
      some ⟨none, "", some (.SharedConfigProfileNotExistError "missing" none)⟩ :=
  ⟨rfl, rfl, rfl⟩

/-- C1, amended: let `AccessKey`, `SecretKey` or `Token` be non-empty.
(1) Whenever the call gets as far as the layered resolution, the options
handed to `LoadDefaultConfig` end with the static provider built from exactly
those three values; and when `LoadDefaultConfig` answers with that provider in
the credentials cache, the outcome is decided by the `Retrieve` of that
provider and, if a role is to be assumed, by the assume-role layer on top of
it. (2) The effective profile is still pre-validated first: if that
pre-validation fails with `e`, the call returns `e` and never reaches
`LoadDefaultConfig`, whatever the static values. -/
theorem getCredentialsProvider_static (w : World) (c : Config)
    (hstatic : c.AccessKey ≠ "" ∨ c.SecretKey ≠ "" ∨ c.Token ≠ "") :
    (∀ opts, Call.LoadDefaultConfig opts ∈ (getCredentialsProvider w c).calls →
      opts.getLast? = some (.WithCredentialsProvider
        (.StaticCredentialsProvider c.AccessKey c.SecretKey c.Token)) ∧
      (w.LoadDefaultConfig opts = .ok ⟨.CredentialsCache
          (.StaticCredentialsProvider c.AccessKey c.SecretKey c.Token)⟩ →
        (getCredentialsProvider w c).result =
          match w.Retrieve (.CredentialsCache
              (.StaticCredentialsProvider c.AccessKey c.SecretKey c.Token)) with
          | .error e => some ⟨none, "", some (NewNoValidCredentialSourcesError e)⟩
          | .ok creds =>
            if roleConfigured c then
              (assumeRoleCredentialsProvider w
                ⟨.CredentialsCache
                  (.StaticCredentialsProvider c.AccessKey c.SecretKey c.Token)⟩
                c).result.map fun r => ⟨r.1, creds.Source, r.2⟩
            else
              some ⟨some (.CredentialsCache
                (.StaticCredentialsProvider c.AccessKey c.SecretKey c.Token)),
                creds.Source, none⟩)) ∧
    (∀ profile credentialsFiles configFiles e,
      Call.LoadSharedConfigProfile profile credentialsFiles configFiles ∈
        (getCredentialsProvider w c).calls →
      w.LoadSharedConfigProfile profile credentialsFiles configFiles = .error e →
      (getCredentialsProvider w c).result = some ⟨none, "", some e⟩ ∧
      ∀ opts, Call.LoadDefaultConfig opts ∉ (getCredentialsProvider w c).calls) := by
  constructor
  · intro opts hcall
    obtain ⟨lo, calls, hrun, _, hopts⟩ := getCredentialsProvider_reaches_load w c opts hcall
    constructor
    · rw [hopts, withStaticCredentials, if_pos hstatic]
      simp
    · intro hcfg
      rw [hopts] at hcfg
      rw [hrun]
      rcases getCredentialsProvider_load_cases w c lo calls with
        ⟨err, hl, _⟩ | ⟨cfg, err, hl, hr, h⟩ | ⟨cfg, creds, hl, hr, hno, h⟩ |
        ⟨cfg, creds, hl, hr, hyes, h⟩
      · rw [hl] at hcfg
        cases hcfg
      · rw [hl] at hcfg
        cases hcfg
        simp only at hr
        rw [h, hr]
      · rw [hl] at hcfg
        cases hcfg
        simp only at hr
        rw [h, hr]
        simp only [if_neg hno]
      · rw [hl] at hcfg
        cases hcfg
        simp only at hr
        rw [h, hr]
        simp only [if_pos hyes]
  · intro profile credentialsFiles configFiles e hcall hfail
    have hrun := getCredentialsProvider_prevalidation_stops w c profile credentialsFiles
      configFiles e hcall hfail
    rw [hrun]
    refine ⟨rfl, ?_⟩
    intro opts hmem
    simp at hmem

/-- Witness of the amended C1, in the concrete world with instance metadata
available: the static configuration, the same with the role `demoRole`, and
the same with a profile that no shared file holds. -/
theorem getCredentialsProvider_static_witness :
    (staticConfig.AccessKey ≠ "" ∨ staticConfig.SecretKey ≠ "" ∨ staticConfig.Token ≠ "") ∧
    Call.LoadDefaultConfig
        [.common "WithRegion", .common "WithHTTPClient", .WithRetryer .NopRetryer,
          .WithEndpointResolverWithOptions ⟨"credentialsEndpointResolver"⟩,
          .WithCredentialsProvider (.StaticCredentialsProvider "test" "secret" "")]
      ∈ (getCredentialsProvider (demoWorld true) staticConfig).calls ∧
    (getCredentialsProvider (demoWorld true) staticConfig).result =
      some ⟨some (.CredentialsCache (.StaticCredentialsProvider "test" "secret" "")),
        "StaticCredentials", none⟩ ∧
    (getCredentialsProvider (demoWorld true)
        { staticConfig with AssumeRole := some demoRole }).result =
      (assumeRoleCredentialsProvider (demoWorld true)
        ⟨.CredentialsCache (.StaticCredentialsProvider "test" "secret" "")⟩
        { staticConfig with AssumeRole := some demoRole }).result.map
          (fun r => ⟨r.1, "StaticCredentials", r.2⟩) ∧
    Call.LoadSharedConfigProfile "missing" [""] [""] ∈
      (getCredentialsProvider (demoWorld true) staticConfigMissingProfile).calls ∧
    (getCredentialsProvider (demoWorld true) staticConfigMissingProfile).result =
      some ⟨none, "", some (.SharedConfigProfileNotExistError "missing" none)⟩ :=
  ⟨by decide, by decide,
    ((getCredentialsProvider_static (demoWorld true) staticConfig (by decide)).1
      [.common "WithRegion", .common "WithHTTPClient", .WithRetryer .NopRetryer,
        .WithEndpointResolverWithOptions ⟨"credentialsEndpointResolver"⟩,
        .WithCredentialsProvider (.StaticCredentialsProvider "test" "secret" "")]
      (by decide)).2 rfl,
    ((getCredentialsProvider_static (demoWorld true)
        { staticConfig with AssumeRole := some demoRole } (by decide)).1
      [.common "WithRegion", .common "WithHTTPClient", .WithRetryer .NopRetryer,
        .WithEndpointResolverWithOptions ⟨"credentialsEndpointResolver"⟩,
        .WithCredentialsProvider (.StaticCredentialsProvider "test" "secret" "")]
      (by decide)).2 rfl,
    by decide,
    ((getCredentialsProvider_static (demoWorld true) staticConfigMissingProfile (by decide)).2
      "missing" [""] [""] (.SharedConfigProfileNotExistError "missing" none)
      (by decide) rfl).1⟩

/-- C2, as stated, fails: for a profile that the shared files lack, the call
fails with the error of `LoadSharedConfigProfile` itself, which is not
classified as "no valid credential sources". -/
theorem getCredentialsProvider_missing_profile_raw_error :
    (getCredentialsProvider (demoWorld true) { Profile := "missing" }).result =
      some ⟨none, "", some (.SharedConfigProfileNotExistError "missing" none)⟩ ∧
    IsNoValidCredentialSourcesError
      (some (.SharedConfigProfileNotExistError "missing" none)) = false :=
  ⟨rfl, by decide⟩

/-- C2, amended: if the call pre-validates a profile (which it does exactly for
a non-empty effective profile, once the steps before have succeeded) and
`LoadSharedConfigProfile` fails with `e` on it, then the call fails: it returns
no provider, the empty source name and the error `e` itself, not wrapped, and
it never reaches `LoadDefaultConfig`. -/
theorem getCredentialsProvider_profile_failure (w : World) (c : Config)
    (profile : String) (credentialsFiles configFiles : List String) (e : Error)
    (hcall : Call.LoadSharedConfigProfile profile credentialsFiles configFiles ∈
      (getCredentialsProvider w c).calls)
    (hfail : w.LoadSharedConfigProfile profile credentialsFiles configFiles = .error e) :
    (getCredentialsProvider w c).result = some ⟨none, "", some e⟩ ∧
    (getCredentialsProvider w c).calls =
      [Call.NewEnvConfig, Call.LoadSharedConfigProfile profile credentialsFiles configFiles] ∧
    profile ≠ "" ∧
    ∃ envConfig, w.NewEnvConfig = .ok envConfig ∧
      profile = if c.Profile = "" then envConfig.SharedConfigProfile else c.Profile := by
  unfold getCredentialsProvider at hcall ⊢
  cases h1 : w.commonLoadOptions c with
  | error err => simp [h1] at hcall
  | ok loadOptions =>
    cases h2 : w.NewEnvConfig with
    | error err => simp [h1, h2] at hcall
    | ok envConfig =>
      cases h3 : w.ResolveSharedCredentialsFiles c with
      | error err => simp [h1, h2, h3] at hcall
      | ok sharedCredentialsFiles =>
        cases h4 : w.ResolveSharedConfigFiles c with
        | error err => simp [h1, h2, h3, h4] at hcall
        | ok sharedConfigFiles =>
          simp only [h1, h2, h3, h4] at hcall ⊢
          by_cases hp : (if c.Profile = "" then envConfig.SharedConfigProfile else c.Profile) ≠ ""
          · rw [if_pos hp] at hcall ⊢
            cases h5 : w.LoadSharedConfigProfile
                (if c.Profile = "" then envConfig.SharedConfigProfile else c.Profile)
                (if sharedCredentialsFiles.length = 0 then [envConfig.SharedCredentialsFile]
                  else sharedCredentialsFiles)
                (if sharedConfigFiles.length = 0 then [envConfig.SharedConfigFile]
                  else sharedConfigFiles) with
            | error err =>
              simp only [h5] at hcall ⊢
              simp only [List.singleton_append, List.mem_cons, List.mem_singleton,
                List.not_mem_nil, or_false, false_or, Call.LoadSharedConfigProfile.injEq,
                reduceCtorEq] at hcall
              obtain ⟨hpr, hf1, hf2⟩ := hcall
              subst hpr hf1 hf2
              rw [h5] at hfail
              cases hfail
              exact ⟨rfl, rfl, hp, envConfig, rfl, rfl⟩
            | ok u =>
              simp only [h5] at hcall
              obtain ⟨rest, hc, hrest⟩ := getCredentialsProvider_load_calls w c
                (loadOptions ++
                  [LoadOption.WithRetryer Retryer.NopRetryer,
                    LoadOption.WithEndpointResolverWithOptions (w.credentialsEndpointResolver c)]
                  ++ [LoadOption.WithSharedConfigProfile c.Profile])
                ([Call.NewEnvConfig] ++
                  [Call.LoadSharedConfigProfile
                    (if c.Profile = "" then envConfig.SharedConfigProfile else c.Profile)
                    (if sharedCredentialsFiles.length = 0 then [envConfig.SharedCredentialsFile]
                      else sharedCredentialsFiles)
                    (if sharedConfigFiles.length = 0 then [envConfig.SharedConfigFile]
                      else sharedConfigFiles)])
              rw [hc] at hcall
              simp only [List.singleton_append, List.cons_append, List.nil_append,
                List.mem_cons, reduceCtorEq, false_or,
                Call.LoadSharedConfigProfile.injEq] at hcall
              rcases hcall with ⟨hpr, hf1, hf2⟩ | hin
              · subst hpr hf1 hf2
                rw [h5] at hfail
                cases hfail
              · exact absurd (hrest _ hin).1 (by simp [Call.isSetup])
          · rw [if_neg hp] at hcall
            obtain ⟨rest, hc, hrest⟩ := getCredentialsProvider_load_calls w c
              (loadOptions ++
                [LoadOption.WithRetryer Retryer.NopRetryer,
                  LoadOption.WithEndpointResolverWithOptions (w.credentialsEndpointResolver c)])
              [Call.NewEnvConfig]
            rw [hc] at hcall
            simp only [List.singleton_append, List.mem_cons, reduceCtorEq, false_or] at hcall
            exact absurd (hrest _ hcall).1 (by simp [Call.isSetup])

/-- Witness of the amended C2: the profile `missing` in the concrete world. -/
theorem getCredentialsProvider_profile_failure_witness :
    Call.LoadSharedConfigProfile "missing" [""] [""] ∈
      (getCredentialsProvider (demoWorld true) { Profile := "missing" }).calls ∧
    (demoWorld true).LoadSharedConfigProfile "missing" [""] [""] =
      .error (.SharedConfigProfileNotExistError "missing" none) ∧
    (getCredentialsProvider (demoWorld true) { Profile := "missing" }).result =
      some ⟨none, "", some (.SharedConfigProfileNotExistError "missing" none)⟩ :=
  ⟨by decide, rfl,
    (getCredentialsProvider_profile_failure (demoWorld true) { Profile := "missing" }
      "missing" [""] [""] (.SharedConfigProfileNotExistError "missing" none)
      (by decide) rfl).1⟩

/-- C3: if the call reaches the layered resolution, `LoadDefaultConfig` answers
with `cfg`, and the validating `Retrieve` on `cfg.Credentials` fails with `e`,
then the call returns no provider, the empty source name and a
`NoValidCredentialSourcesError` whose wrapped cause is `e`; the failed
`Retrieve` is its last call, and the assume-role layer is not entered,
whatever `c.AssumeRole` holds. -/
theorem getCredentialsProvider_validation_failure (w : World) (c : Config)
    (opts : List LoadOption) (cfg : AwsConfig) (e : Error)
    (hcall : Call.LoadDefaultConfig opts ∈ (getCredentialsProvider w c).calls)
    (hcfg : w.LoadDefaultConfig opts = .ok cfg)
    (hretr : w.Retrieve cfg.Credentials = .error e) :
    (getCredentialsProvider w c).result =
      some ⟨none, "", some (.NoValidCredentialSourcesError (some e))⟩ ∧
    Error.Unwrap (.NoValidCredentialSourcesError (some e)) = some e ∧
    IsNoValidCredentialSourcesError (some (.NoValidCredentialSourcesError (some e))) = true ∧
    (∃ pre, (getCredentialsProvider w c).calls =
        pre ++ [Call.LoadDefaultConfig opts, Call.Retrieve cfg.Credentials] ∧
      ∀ x ∈ pre, x.isSetup = true) ∧
    ∀ x ∈ (getCredentialsProvider w c).calls, x.isAssumeRole = false := by
  obtain ⟨lo, calls, hrun, hs, hopts⟩ := getCredentialsProvider_reaches_load w c opts hcall
  rw [hopts] at hcfg
  have hres : getCredentialsProvider w c =
      ⟨some ⟨none, "", some (.NoValidCredentialSourcesError (some e))⟩,
        calls ++ [Call.LoadDefaultConfig opts] ++ [Call.Retrieve cfg.Credentials]⟩ := by
    rw [hrun, hopts]
    rcases getCredentialsProvider_load_cases w c lo calls with
      ⟨err, hl, _⟩ | ⟨cfg2, err, hl, hr, h⟩ | ⟨cfg2, creds, hl, hr, _, _⟩ |
      ⟨cfg2, creds, hl, hr, _, _⟩
    · rw [hl] at hcfg
      cases hcfg
    · rw [hl] at hcfg
      cases hcfg
      rw [hr] at hretr
      cases hretr
      exact h
    · rw [hl] at hcfg
      cases hcfg
      rw [hr] at hretr
      cases hretr
    · rw [hl] at hcfg
      cases hcfg
      rw [hr] at hretr
      cases hretr
  rw [hres]
  refine ⟨rfl, rfl, rfl, ⟨calls, by simp, hs⟩, ?_⟩
  intro x hx
  simp only [List.append_assoc, List.singleton_append, List.mem_append, List.mem_cons,
    List.not_mem_nil, or_false] at hx
  rcases hx with hx | rfl | rfl
  · exact isAssumeRole_of_isSetup x (hs x hx)
  · rfl
  · rfl

/-- Witness of C3: no credentials configured, the instance metadata service
out of reach, and a role to assume. -/
theorem getCredentialsProvider_validation_failure_witness :
    Call.LoadDefaultConfig
        [.common "WithRegion", .common "WithHTTPClient", .WithRetryer .NopRetryer,
          .WithEndpointResolverWithOptions ⟨"credentialsEndpointResolver"⟩]
      ∈ (getCredentialsProvider (demoWorld false) { AssumeRole := some demoRole }).calls ∧
    roleConfigured { AssumeRole := some demoRole } ∧
    (getCredentialsProvider (demoWorld false) { AssumeRole := some demoRole }).result =
      some ⟨none, "", some (.NoValidCredentialSourcesError
        (some (.errorString "failed to refresh cached credentials")))⟩ :=
  ⟨by decide, by decide,
    (getCredentialsProvider_validation_failure (demoWorld false) { AssumeRole := some demoRole }
      [.common "WithRegion", .common "WithHTTPClient", .WithRetryer .NopRetryer,
        .WithEndpointResolverWithOptions ⟨"credentialsEndpointResolver"⟩]
      ⟨.CredentialsCache (.resolved "EC2RoleProvider")⟩
      (.errorString "failed to refresh cached credentials") (by decide) rfl rfl).1⟩

theorem not_roleConfigured_iff (c : Config) :
    ¬ roleConfigured c ↔
      (c.AssumeRole = none ∨ ∃ ar, c.AssumeRole = some ar ∧ ar.RoleARN = "") := by
  unfold roleConfigured
  cases c.AssumeRole with
  | none => simp
  | some ar => simp

/-- C4: (1) when the `Retrieve` of the assume-role provider fails with `e`,
`assumeRoleCredentialsProvider` returns a nil provider and a
`CannotAssumeRoleError` whose wrapped cause is `e`, classified as "cannot
assume role" and, `e` not being one itself, not as "no valid credential
sources"; when it succeeds, the provider returned is the assume-role provider
in the credentials cache. (2) With a non-empty `RoleARN` and validated base
credentials, `getCredentialsProvider` enters the layer and returns its outcome
with the source of the base credentials. (3) With a nil `AssumeRole` or an
empty `RoleARN`, `getCredentialsProvider` never enters the layer and, the base
credentials validated, returns the base provider. -/
theorem assumeRole_layer :
    (∀ (w : World) (awsConfig : AwsConfig) (c : Config) (ar : AssumeRole),
      c.AssumeRole = some ar →
      (∀ e, w.Retrieve (NewAssumeRoleProvider (w.stsClient awsConfig c) ar.RoleARN
            (assumeRoleOptFn ar)) = .error e →
        (assumeRoleCredentialsProvider w awsConfig c).result =
          some (none, some (.CannotAssumeRoleError (some e))) ∧
        Error.Unwrap (.CannotAssumeRoleError (some e)) = some e ∧
        IsCannotAssumeRoleError (some (.CannotAssumeRoleError (some e))) = true ∧
        (IsNoValidCredentialSourcesError (some e) = false →
          IsNoValidCredentialSourcesError (some (.CannotAssumeRoleError (some e))) = false)) ∧
      (∀ creds, w.Retrieve (NewAssumeRoleProvider (w.stsClient awsConfig c) ar.RoleARN
            (assumeRoleOptFn ar)) = .ok creds →
        (assumeRoleCredentialsProvider w awsConfig c).result =
          some (some (.CredentialsCache (NewAssumeRoleProvider (w.stsClient awsConfig c)
            ar.RoleARN (assumeRoleOptFn ar))), none))) ∧
    (∀ (w : World) (c : Config) (opts : List LoadOption) (cfg : AwsConfig)
        (creds : Credentials),
      (∃ ar, c.AssumeRole = some ar ∧ ar.RoleARN ≠ "") →
      Call.LoadDefaultConfig opts ∈ (getCredentialsProvider w c).calls →
      w.LoadDefaultConfig opts = .ok cfg →
      w.Retrieve cfg.Credentials = .ok creds →
      (getCredentialsProvider w c).result =
        (assumeRoleCredentialsProvider w cfg c).result.map
          (fun r => ⟨r.1, creds.Source, r.2⟩) ∧
      ∃ x ∈ (getCredentialsProvider w c).calls, x.isAssumeRole = true) ∧
    (∀ (w : World) (c : Config),
      (c.AssumeRole = none ∨ ∃ ar, c.AssumeRole = some ar ∧ ar.RoleARN = "") →
      (∀ x ∈ (getCredentialsProvider w c).calls, x.isAssumeRole = false) ∧
      ∀ (opts : List LoadOption) (cfg : AwsConfig) (creds : Credentials),
        Call.LoadDefaultConfig opts ∈ (getCredentialsProvider w c).calls →
        w.LoadDefaultConfig opts = .ok cfg →
        w.Retrieve cfg.Credentials = .ok creds →
        (getCredentialsProvider w c).result = some ⟨some cfg.Credentials, creds.Source, none⟩) := by
  refine ⟨?_, ?_, ?_⟩
  · intro w awsConfig c ar har
    have h := (assumeRoleCredentialsProvider_some w awsConfig c ar har).2
    constructor
    · intro e he
      rw [he] at h
      refine ⟨h, rfl, rfl, ?_⟩
      intro hne
      simpa [IsNoValidCredentialSourcesError, errorChain, Error.chain] using hne
    · intro creds hc
      rw [hc] at h
      exact h
  · intro w c opts cfg creds hrole hcall hcfg hretr
    have hrole2 : roleConfigured c := hrole
    obtain ⟨lo, calls, hrun, hs, hopts⟩ := getCredentialsProvider_reaches_load w c opts hcall
    rw [hopts] at hcfg
    rcases getCredentialsProvider_load_cases w c lo calls with
      ⟨err, hl, _⟩ | ⟨cfg2, err, hl, hr, h⟩ | ⟨cfg2, creds2, hl, hr, hno, _⟩ |
      ⟨cfg2, creds2, hl, hr, _, h⟩
    · rw [hl] at hcfg
      cases hcfg
    · rw [hl] at hcfg
      cases hcfg
      rw [hr] at hretr
      cases hretr
    · exact absurd hrole2 hno
    · rw [hl] at hcfg
      cases hcfg
      rw [hr] at hretr
      cases hretr
      rw [hrun, h]
      refine ⟨rfl, ?_⟩
      obtain ⟨ar, har, _⟩ := hrole
      rw [(assumeRoleCredentialsProvider_some w cfg c ar har).1]
      exact ⟨Call.Printf ar.RoleARN ar.SessionName ar.ExternalID, by simp, rfl⟩
  · intro w c hno
    have hno2 : ¬ roleConfigured c := (not_roleConfigured_iff c).2 hno
    constructor
    · intro x hx
      rcases getCredentialsProvider_setup w c with ⟨err, calls, h, hs⟩ | ⟨lo, calls, h, hs⟩
      · rw [h] at hx
        exact isAssumeRole_of_isSetup x (hs x hx)
      · rw [h] at hx
        rcases getCredentialsProvider_load_cases w c lo calls with
          ⟨err, _, h2⟩ | ⟨cfg2, err, _, _, h2⟩ | ⟨cfg2, creds2, _, _, _, h2⟩ |
          ⟨cfg2, creds2, _, _, hyes, _⟩
        · rw [h2] at hx
          simp only [List.mem_append, List.mem_singleton] at hx
          rcases hx with hx | rfl
          · exact isAssumeRole_of_isSetup x (hs x hx)
          · rfl
        · rw [h2] at hx
          simp only [List.mem_append, List.mem_singleton] at hx
          rcases hx with (hx | rfl) | rfl
          · exact isAssumeRole_of_isSetup x (hs x hx)
          · rfl
          · rfl
        · rw [h2] at hx
          simp only [List.mem_append, List.mem_singleton] at hx
          rcases hx with (hx | rfl) | rfl
          · exact isAssumeRole_of_isSetup x (hs x hx)
          · rfl
          · rfl
        · exact absurd hyes hno2
    · intro opts cfg creds hcall hcfg hretr
      obtain ⟨lo, calls, hrun, hs, hopts⟩ := getCredentialsProvider_reaches_load w c opts hcall
      rw [hopts] at hcfg
      rcases getCredentialsProvider_load_cases w c lo calls with
        ⟨err, hl, _⟩ | ⟨cfg2, err, hl, hr, h⟩ | ⟨cfg2, creds2, hl, hr, _, h⟩ |
        ⟨cfg2, creds2, _, _, hyes, _⟩
      · rw [hl] at hcfg
        cases hcfg
      · rw [hl] at hcfg
        cases hcfg
        rw [hr] at hretr
        cases hretr
      · rw [hl] at hcfg
        cases hcfg
        rw [hr] at hretr
        cases hretr
        rw [hrun, h]
      · exact absurd hyes hno2

/-- Witness of C4 in the concrete world: a refused role, the role `demoRole`
on top of the instance metadata credentials, and no role at all. -/
theorem assumeRole_layer_witness :
    (assumeRoleCredentialsProvider (demoWorld true)
        ⟨.CredentialsCache (.resolved "EC2RoleProvider")⟩
        { AssumeRole := some deniedRole }).result =
      some (none, some (.CannotAssumeRoleError (some
        (.GenericAPIError "AccessDenied" "not authorized to perform sts:AssumeRole")))) ∧
    IsNoValidCredentialSourcesError (some (.CannotAssumeRoleError (some
      (.GenericAPIError "AccessDenied" "not authorized to perform sts:AssumeRole")))) = false ∧
    (assumeRoleCredentialsProvider (demoWorld true)
        ⟨.CredentialsCache (.resolved "EC2RoleProvider")⟩
        { AssumeRole := some demoRole }).result =
      some (some (.CredentialsCache (NewAssumeRoleProvider ⟨"sts"⟩ demoRole.RoleARN
        (assumeRoleOptFn demoRole))), none) ∧
    (getCredentialsProvider (demoWorld true) { AssumeRole := some demoRole }).result =
      (assumeRoleCredentialsProvider (demoWorld true)
        ⟨.CredentialsCache (.resolved "EC2RoleProvider")⟩
        { AssumeRole := some demoRole }).result.map
          (fun r => ⟨r.1, "EC2RoleProvider", r.2⟩) ∧
    (getCredentialsProvider (demoWorld true) {}).result =
      some ⟨some (.CredentialsCache (.resolved "EC2RoleProvider")), "EC2RoleProvider", none⟩ :=
  ⟨((assumeRole_layer.1 (demoWorld true) ⟨.CredentialsCache (.resolved "EC2RoleProvider")⟩
      { AssumeRole := some deniedRole } deniedRole rfl).1
      (.GenericAPIError "AccessDenied" "not authorized to perform sts:AssumeRole") rfl).1,
   ((assumeRole_layer.1 (demoWorld true) ⟨.CredentialsCache (.resolved "EC2RoleProvider")⟩
      { AssumeRole := some deniedRole } deniedRole rfl).1
      (.GenericAPIError "AccessDenied" "not authorized to perform sts:AssumeRole") rfl).2.2.2
      (by decide),
   (assumeRole_layer.1 (demoWorld true) ⟨.CredentialsCache (.resolved "EC2RoleProvider")⟩
      { AssumeRole := some demoRole } demoRole rfl).2
      ⟨"AssumeRoleAccessKey", "AssumeRoleSecretKey", "AssumeRoleSessionToken",
        "AssumeRoleProvider"⟩ rfl,
   (assumeRole_layer.2.1 (demoWorld true) { AssumeRole := some demoRole }
      [.common "WithRegion", .common "WithHTTPClient", .WithRetryer .NopRetryer,
        .WithEndpointResolverWithOptions ⟨"credentialsEndpointResolver"⟩]
      ⟨.CredentialsCache (.resolved "EC2RoleProvider")⟩
      ⟨"Ec2MetadataAccessKey", "Ec2MetadataSecretKey", "Ec2MetadataSessionToken",
        "EC2RoleProvider"⟩
      ⟨demoRole, rfl, by decide⟩ (by decide) rfl rfl).1,
   (assumeRole_layer.2.2 (demoWorld true) {} (Or.inl rfl)).2
      [.common "WithRegion", .common "WithHTTPClient", .WithRetryer .NopRetryer,
        .WithEndpointResolverWithOptions ⟨"credentialsEndpointResolver"⟩]
      ⟨.CredentialsCache (.resolved "EC2RoleProvider")⟩
      ⟨"Ec2MetadataAccessKey", "Ec2MetadataSecretKey", "Ec2MetadataSessionToken",
        "EC2RoleProvider"⟩
      (by decide) rfl rfl⟩

/-! ## The options of the role-assumption request -/

theorem foldl_append_singleton_eq_map {α β : Type} (f : α → β) (l : List α) (acc : List β) :
    l.foldl (fun acc a => acc ++ [f a]) acc = acc ++ l.map f := by
  induction l generalizing acc with
  | nil => simp
  | cons a l ih => simp [List.foldl_cons, ih]

/-- C5: in the options that `assumeRoleCredentialsProvider` sets on the
role-assumption request, each of `ExternalID`, `Policy`, `PolicyARNs`, `Tags`
and `TransitiveTagKeys` is absent when the field of the `AssumeRole` is empty
and otherwise holds the value of that field: the string itself, the ARNs in
their order, one tag per entry of the mapping, the list of keys itself. These
are the options of the provider on which `Retrieve` is called. -/
theorem assumeRoleOptFn_omits_empty (client : STSClient) (ar : AssumeRole) :
    (assumeRoleOptFn ar { Client := client, RoleARN := ar.RoleARN }).ExternalID =
      (if ar.ExternalID = "" then none else some ar.ExternalID) ∧
    (assumeRoleOptFn ar { Client := client, RoleARN := ar.RoleARN }).Policy =
      (if ar.Policy = "" then none else some ar.Policy) ∧
    (assumeRoleOptFn ar { Client := client, RoleARN := ar.RoleARN }).PolicyARNs =
      (if ar.PolicyARNs = [] then none
        else some (ar.PolicyARNs.map fun policyARN => { Arn := some policyARN })) ∧
    (assumeRoleOptFn ar { Client := client, RoleARN := ar.RoleARN }).Tags =
      (if ar.Tags.entries = [] then none
        else some (ar.Tags.entries.map fun kv => { Key := some kv.1, Value := some kv.2 })) ∧
    (assumeRoleOptFn ar { Client := client, RoleARN := ar.RoleARN }).TransitiveTagKeys =
      (if ar.TransitiveTagKeys = [] then none else some ar.TransitiveTagKeys) ∧
    ∀ (w : World) (awsConfig : AwsConfig) (c : Config),
      (assumeRoleCredentialsProvider w awsConfig { c with AssumeRole := some ar }).calls =
        [Call.Printf ar.RoleARN ar.SessionName ar.ExternalID,
          Call.Retrieve (.AssumeRoleProvider
            (assumeRoleOptFn ar
              { Client := w.stsClient awsConfig { c with AssumeRole := some ar },
                RoleARN := ar.RoleARN }))] := by
  refine ⟨?_, ?_, ?_, ?_, ?_, ?_⟩
  · unfold assumeRoleOptFn
    simp only [apply_ite AssumeRoleOptions.ExternalID, ite_self, ite_not]
  · unfold assumeRoleOptFn
    simp only [apply_ite AssumeRoleOptions.Policy, ite_self, ite_not]
  · unfold assumeRoleOptFn
    simp only [apply_ite AssumeRoleOptions.PolicyARNs, ite_self, foldl_append_singleton_eq_map,
      List.nil_append]
    cases ar.PolicyARNs <;> simp
  · unfold assumeRoleOptFn
    simp only [apply_ite AssumeRoleOptions.Tags, ite_self, foldl_append_singleton_eq_map,
      List.nil_append, GoMap.len]
    cases ar.Tags.entries <;> simp
  · unfold assumeRoleOptFn
    simp only [apply_ite AssumeRoleOptions.TransitiveTagKeys, ite_self]
    cases ar.TransitiveTagKeys <;> simp
  · intro w awsConfig c
    exact (assumeRoleCredentialsProvider_some w awsConfig _ ar rfl).1

theorem assumeRoleOptFn_Tags (ar : AssumeRole) (opts : AssumeRoleOptions) :
    (assumeRoleOptFn ar opts).Tags =
      if ar.Tags.entries = [] then opts.Tags
      else some (ar.Tags.entries.map fun kv => { Key := some kv.1, Value := some kv.2 }) := by
  unfold assumeRoleOptFn
  simp only [apply_ite AssumeRoleOptions.Tags, ite_self, foldl_append_singleton_eq_map,
    List.nil_append, GoMap.len]
  cases ar.Tags.entries <;> simp

theorem mapOfTags_append_singleton (tags : List Tag) (k v : String) :
    mapOfTags (tags ++ [{ Key := some k, Value := some v }]) =
      fun x => if x = k then some v else mapOfTags tags x := by
  unfold mapOfTags
  rw [List.foldl_append]
  rfl

theorem mapOfTags_map_entries (l : List (String × String))
    (hn : (l.map Prod.fst).Nodup) (x : String) :
    mapOfTags (l.map fun kv => { Key := some kv.1, Value := some kv.2 }) x =
      (l.find? fun kv => kv.1 == x).map Prod.snd := by
  induction l using List.reverseRecOn with
  | nil => rfl
  | append_singleton l a ih =>
    rw [List.map_append, List.nodup_append] at hn
    obtain ⟨hl, _, hdis⟩ := hn
    rw [List.map_append, List.map_singleton, mapOfTags_append_singleton, List.find?_append]
    by_cases hx : x = a.1
    · have hnone : l.find? (fun kv => kv.1 == x) = none := by
        rw [List.find?_eq_none]
        intro kv hkv hk
        simp only [beq_iff_eq] at hk
        exact hdis (List.mem_map_of_mem Prod.fst hkv) (by simp [hk, hx])
      subst hx
      simp [hnone]
    · have hx2 : ¬ a.1 = x := fun h => hx h.symm
      simp only [hx, if_false, ih hl]
      simp [List.find?_cons, hx2]

/-- C6: for a non-empty tag mapping, the tag list that
`assumeRoleCredentialsProvider` transmits (the `Tags` of the options of the
provider on which it calls `Retrieve`, the provider it returns in the
credentials cache when that call succeeds) has one entry per entry of the
mapping: its length is the size of the mapping, its keys are those of the
mapping, none twice, a pair is in the list exactly when the mapping holds it,
and the mapping rebuilt from the list is the mapping. -/
theorem assumeRoleCredentialsProvider_tags_roundtrip (ar : AssumeRole)
    (hlen : 0 < ar.Tags.len) :
    ∃ tags,
      (∀ (w : World) (awsConfig : AwsConfig) (c : Config), ∃ options,
        options.Tags = some tags ∧
        (assumeRoleCredentialsProvider w awsConfig { c with AssumeRole := some ar }).calls =
          [Call.Printf ar.RoleARN ar.SessionName ar.ExternalID,
            Call.Retrieve (.AssumeRoleProvider options)] ∧
        ∀ creds, w.Retrieve (.AssumeRoleProvider options) = .ok creds →
          (assumeRoleCredentialsProvider w awsConfig { c with AssumeRole := some ar }).result =
            some (some (.CredentialsCache (.AssumeRoleProvider options)), none)) ∧
      tags.length = ar.Tags.len ∧
      tags.map Tag.Key = ar.Tags.keys.map some ∧
      (tags.map Tag.Key).Nodup ∧
      (∀ t ∈ tags, ∃ k v, t = { Key := some k, Value := some v } ∧ ar.Tags.get? k = some v) ∧
      (∀ k v, ({ Key := some k, Value := some v } : Tag) ∈ tags ↔ ar.Tags.get? k = some v) ∧
      mapOfTags tags = ar.Tags.get? := by
  have hne : ar.Tags.entries ≠ [] := by
    intro h
    simp [GoMap.len, h] at hlen
  refine ⟨ar.Tags.entries.map fun kv => { Key := some kv.1, Value := some kv.2 }, ?_, ?_, ?_,
    ?_, ?_, ?_, ?_⟩
  · intro w awsConfig c
    have hsome := assumeRoleCredentialsProvider_some w awsConfig
      { c with AssumeRole := some ar } ar rfl
    refine ⟨assumeRoleOptFn ar
      { Client := w.stsClient awsConfig { c with AssumeRole := some ar },
        RoleARN := ar.RoleARN }, ?_, hsome.1, ?_⟩
    · rw [assumeRoleOptFn_Tags, if_neg hne]
    · intro creds hretr
      have hres := hsome.2
      unfold NewAssumeRoleProvider at hres
      rw [hretr] at hres
      exact hres
  · simp [GoMap.len]
  · simp [GoMap.keys, Function.comp_def]
  · have hk : (ar.Tags.entries.map fun kv => ({ Key := some kv.1, Value := some kv.2 } : Tag)).map
        Tag.Key = (ar.Tags.entries.map Prod.fst).map some := by
      simp [Function.comp_def]
    rw [hk]
    exact ar.Tags.nodup.map (Option.some_injective _)
  · intro t ht
    obtain ⟨kv, hkv, rfl⟩ := List.mem_map.1 ht
    exact ⟨kv.1, kv.2, rfl, GoMap.get?_eq_some_of_mem _ _ _ hkv⟩
  · intro k v
    constructor
    · intro ht
      obtain ⟨kv, hkv, heq⟩ := List.mem_map.1 ht
      simp only [Tag.mk.injEq, Option.some.injEq] at heq
      obtain ⟨rfl, rfl⟩ := heq
      exact GoMap.get?_eq_some_of_mem _ _ _ hkv
    · intro hg
      exact List.mem_map.2 ⟨(k, v), GoMap.get?_eq_some_mem _ _ _ hg, rfl⟩
  · funext x
    rw [mapOfTags_map_entries _ ar.Tags.nodup]
    rfl

/-- Witness of C6: the two tags of `demoRole`, and the call that carries them
in the concrete world. -/
theorem assumeRoleCredentialsProvider_tags_roundtrip_witness :
    0 < demoRole.Tags.len ∧
    (∃ options,
      options.Tags = some [{ Key := some "team", Value := some "core" },
        { Key := some "env", Value := some "test" }] ∧
      Call.Retrieve (.AssumeRoleProvider options) ∈
        (assumeRoleCredentialsProvider (demoWorld true)
          ⟨.CredentialsCache (.resolved "EC2RoleProvider")⟩
          { AssumeRole := some demoRole }).calls) ∧
    ∃ tags,
      (∀ (w : World) (awsConfig : AwsConfig) (c : Config), ∃ options,
        options.Tags = some tags ∧
        (assumeRoleCredentialsProvider w awsConfig { c with AssumeRole := some demoRole }).calls =
          [Call.Printf demoRole.RoleARN demoRole.SessionName demoRole.ExternalID,
            Call.Retrieve (.AssumeRoleProvider options)] ∧
        ∀ creds, w.Retrieve (.AssumeRoleProvider options) = .ok creds →
          (assumeRoleCredentialsProvider w awsConfig
              { c with AssumeRole := some demoRole }).result =
            some (some (.CredentialsCache (.AssumeRoleProvider options)), none)) ∧
      tags.length = demoRole.Tags.len ∧
      tags.map Tag.Key = demoRole.Tags.keys.map some ∧
      (tags.map Tag.Key).Nodup ∧
      (∀ t ∈ tags, ∃ k v, t = { Key := some k, Value := some v } ∧
        demoRole.Tags.get? k = some v) ∧
      (∀ k v, ({ Key := some k, Value := some v } : Tag) ∈ tags ↔
        demoRole.Tags.get? k = some v) ∧
      mapOfTags tags = demoRole.Tags.get? :=
  ⟨by decide,
    ⟨assumeRoleOptFn demoRole { Client := ⟨"sts"⟩, RoleARN := demoRole.RoleARN },
      by decide, by decide⟩,
    assumeRoleCredentialsProvider_tags_roundtrip demoRole (by decide)⟩

/-! ## The user-agent string -/

namespace config

theorem intercalate_go_append (acc sep : String) (l : List String) (v : String) :
    String.intercalate.go acc sep (l ++ [v]) = String.intercalate.go acc sep l ++ sep ++ v := by
  induction l generalizing acc with
  | nil => simp [String.intercalate.go]
  | cons a rest ih => simp [String.intercalate.go, ih]

theorem intercalate_go_length (acc sep : String) (l : List String) :
    acc.length ≤ (String.intercalate.go acc sep l).length := by
  induction l generalizing acc with
  | nil => simp [String.intercalate.go]
  | cons a rest ih =>
    rw [String.intercalate.go]
    refine le_trans ?_ (ih (acc ++ sep ++ a))
    simp only [String.length_append]
    omega

theorem length_pos_of_ne_empty (s : String) (h : s ≠ "") : 0 < s.length := by
  rcases s with ⟨l⟩
  cases l with
  | nil => exact absurd rfl h
  | cons c rest => simp [String.length]

/-- Writing a non-empty part to a builder that holds the parts written so
far, each non-empty and joined by single blanks, keeps it so. -/
theorem appendTo_intercalate (parts : List String) (hne : ∀ x ∈ parts, 0 < x.length)
    (v : String) :
    UserAgentBuilder.appendTo ⟨" ".intercalate parts⟩ v = ⟨" ".intercalate (parts ++ [v])⟩ := by
  unfold UserAgentBuilder.appendTo
  cases parts with
  | nil => simp [String.intercalate, String.intercalate.go]
  | cons a rest =>
    have hpos : 0 < (" ".intercalate (a :: rest)).length := by
      rw [String.intercalate]
      exact lt_of_lt_of_le (hne a (List.mem_cons_self _ _)) (intercalate_go_length a " " rest)
    simp only [hpos, if_true, List.cons_append]
    rw [String.intercalate, String.intercalate, intercalate_go_append, String.append_assoc]

theorem userAgentParts_pos (p : UserAgentProduct) : ∀ x ∈ userAgentParts p, 0 < x.length := by
  intro x hx
  unfold userAgentParts at hx
  rw [List.mem_append] at hx
  rcases hx with hx | hx
  · by_cases hn : p.Name = ""
    · simp [hn] at hx
    · by_cases hv : p.Version = ""
      · simp only [hn, hv, if_false, if_true, List.mem_singleton] at hx
        rw [hx]
        exact length_pos_of_ne_empty _ hn
      · simp only [hn, hv, if_false, List.mem_singleton] at hx
        rw [hx]
        simp only [String.length_append]
        have := length_pos_of_ne_empty _ hn
        omega
  · by_cases hc : p.Comment = ""
    · simp [hc] at hx
    · simp only [hc, if_false, List.mem_singleton] at hx
      rw [hx]
      simp only [String.length_append]
      have : "(".length = 1 := rfl
      omega

theorem buildUserAgentPart_intercalate (p : UserAgentProduct) (parts : List String)
    (hne : ∀ x ∈ parts, 0 < x.length) :
    p.buildUserAgentPart ⟨" ".intercalate parts⟩ =
      ⟨" ".intercalate (parts ++ userAgentParts p)⟩ := by
  have hpos := userAgentParts_pos p
  unfold userAgentParts at hpos ⊢
  unfold UserAgentProduct.buildUserAgentPart UserAgentBuilder.AddKeyValue UserAgentBuilder.AddKey
  by_cases hn : p.Name = ""
  · by_cases hc : p.Comment = ""
    · simp [hn, hc]
    · simp only [hn, hc, ne_eq, not_true_eq_false, not_false_eq_true, if_false, if_true,
        List.nil_append]
      exact appendTo_intercalate parts hne _
  · by_cases hv : p.Version = ""
    · simp only [hn, hv, ne_eq, not_true_eq_false, not_false_eq_true, if_false, if_true] at hpos ⊢
      rw [appendTo_intercalate parts hne]
      by_cases hc : p.Comment = ""
      · simp [hc]
      · simp only [hc, if_false] at hpos ⊢
        rw [appendTo_intercalate, List.append_assoc]
        · simp
        · intro x hx
          rcases List.mem_append.1 hx with hx | hx
          · exact hne x hx
          · exact hpos x (by simp at hx; simp [hx])
    · simp only [hn, hv, ne_eq, not_true_eq_false, not_false_eq_true, if_false, if_true] at hpos ⊢
      rw [appendTo_intercalate parts hne]
      by_cases hc : p.Comment = ""
      · simp [hc]
      · simp only [hc, if_false] at hpos ⊢
        rw [appendTo_intercalate, List.append_assoc]
        · simp
        · intro x hx
          rcases List.mem_append.1 hx with hx | hx
          · exact hne x hx
          · exact hpos x (by simp at hx; simp [hx])

theorem foldl_buildUserAgentPart (ua : UserAgentProducts) (parts : List String)
    (hne : ∀ x ∈ parts, 0 < x.length) :
    ua.foldl (fun builder p => p.buildUserAgentPart builder) ⟨" ".intercalate parts⟩ =
      ⟨" ".intercalate (parts ++ ua.flatMap userAgentParts)⟩ := by
  induction ua generalizing parts with
  | nil => simp
  | cons p rest ih =>
    rw [List.foldl_cons, buildUserAgentPart_intercalate p parts hne, ih, List.flatMap_cons,
      List.append_assoc]
    intro x hx
    rcases List.mem_append.1 hx with hx | hx
    · exact hne x hx
    · exact userAgentParts_pos p x hx

/-- C11: `BuildUserAgentString` returns the parts of the products, in list
order, joined by single blanks, where a product contributes `Name/Version` if
its name and version are non-empty, `Name` if only its name is, then
`(Comment)` if its comment is non-empty, and nothing else; the empty list gives
the empty string, and the two products of `TestFromContext` give
`first/1.2.3 second/1.0.2 (a comment)`. -/
theorem BuildUserAgentString_spec :
    (∀ ua : UserAgentProducts,
      BuildUserAgentString ua = " ".intercalate (ua.flatMap userAgentParts)) ∧
    (∀ p : UserAgentProduct, userAgentParts p =
      (if p.Name = "" then []
        else if p.Version = "" then [p.Name] else [p.Name ++ "/" ++ p.Version]) ++
      (if p.Comment = "" then [] else ["(" ++ p.Comment ++ ")"])) ∧
    BuildUserAgentString [] = "" ∧
    BuildUserAgentString [{ Name := "first", Version := "1.2.3" },
      { Name := "second", Version := "1.0.2", Comment := "a comment" }] =
      "first/1.2.3 second/1.0.2 (a comment)" := by
  refine ⟨?_, fun p => rfl, rfl, by decide⟩
  intro ua
  have h := foldl_buildUserAgentPart ua [] (fun x hx => absurd hx (List.not_mem_nil x))
  unfold BuildUserAgentString NewUserAgentBuilder UserAgentBuilder.Build
  simp only
  have h0 : (" ".intercalate [] : String) = "" := rfl
  rw [h0] at h
  rw [h, List.nil_append]

end config

/-! ## The effective profile -/

theorem mem_withStaticCredentials (c : Config) (loadOptions : List LoadOption) (o : LoadOption)
    (h : o ∈ loadOptions) : o ∈ withStaticCredentials c loadOptions := by
  unfold withStaticCredentials
  split
  · exact List.mem_append_left _ h
  · exact h

/-- C12, as stated, fails. In the environment of
`TestAWSGetCredentials_sharedCredentialsFile` (`AWS_PROFILE=myprofile` and a
credentials file that holds this profile) and with an empty `Profile` in the
configuration, the effective profile is `myprofile` and it is pre-validated
with success, while the shared-config-profile option handed to
`LoadDefaultConfig` carries the empty `Profile` of the configuration. -/
theorem getCredentialsProvider_profile_option_empty :
    envProfileWorld.NewEnvConfig =
      .ok { SharedConfigProfile := "myprofile", SharedCredentialsFile := envCredentialsFile } ∧
    envProfileWorld.LoadSharedConfigProfile "myprofile" [envCredentialsFile] [""] = .ok () ∧
    (getCredentialsProvider envProfileWorld {}).calls =
      [Call.NewEnvConfig,
        Call.LoadSharedConfigProfile "myprofile" [envCredentialsFile] [""],
        Call.LoadDefaultConfig
          [.common "WithRegion", .common "WithHTTPClient", .WithRetryer .NopRetryer,
            .WithEndpointResolverWithOptions ⟨"credentialsEndpointResolver"⟩,
            .WithSharedConfigProfile ""],
        Call.Retrieve
          (.CredentialsCache (.resolved "SharedConfigCredentials: /tmp/terraform_aws_cred"))] ∧
    LoadOption.WithSharedConfigProfile "myprofile" ∉
      [LoadOption.common "WithRegion", .common "WithHTTPClient", .WithRetryer .NopRetryer,
        .WithEndpointResolverWithOptions ⟨"credentialsEndpointResolver"⟩,
        .WithSharedConfigProfile ""] ∧
    (getCredentialsProvider envProfileWorld {}).result =
      some ⟨some (.CredentialsCache
          (.resolved "SharedConfigCredentials: /tmp/terraform_aws_cred")),
        "SharedConfigCredentials: /tmp/terraform_aws_cred", none⟩ :=
  ⟨rfl, rfl, by decide, by decide, rfl⟩

/-- C12, amended: the effective profile is the `Profile` of the configuration
if that is non-empty and the profile of the environment otherwise. When it is
non-empty, (1) it is the only name that is pre-validated, (2) it is
pre-validated against the resolved files as soon as the steps before have
succeeded, and (3) the layered resolution is reached only after that
pre-validation has succeeded, with a shared-config-profile option that carries
the `Profile` of the configuration: the effective profile whenever that
`Profile` is non-empty. -/
theorem getCredentialsProvider_effective_profile (w : World) (c : Config)
    (envConfig : EnvConfig) (henv : w.NewEnvConfig = .ok envConfig)
    (hprofile : (if c.Profile = "" then envConfig.SharedConfigProfile else c.Profile) ≠ "") :
    (∀ profile f1 f2,
      Call.LoadSharedConfigProfile profile f1 f2 ∈ (getCredentialsProvider w c).calls →
      profile = if c.Profile = "" then envConfig.SharedConfigProfile else c.Profile) ∧
    (∀ lo f1 f2, w.commonLoadOptions c = .ok lo →
      w.ResolveSharedCredentialsFiles c = .ok f1 →
      w.ResolveSharedConfigFiles c = .ok f2 →
      Call.LoadSharedConfigProfile
          (if c.Profile = "" then envConfig.SharedConfigProfile else c.Profile)
          (if f1.length = 0 then [envConfig.SharedCredentialsFile] else f1)
          (if f2.length = 0 then [envConfig.SharedConfigFile] else f2) ∈
        (getCredentialsProvider w c).calls) ∧
    (∀ opts, Call.LoadDefaultConfig opts ∈ (getCredentialsProvider w c).calls →
      (∃ f1 f2,
        Call.LoadSharedConfigProfile
            (if c.Profile = "" then envConfig.SharedConfigProfile else c.Profile) f1 f2 ∈
          (getCredentialsProvider w c).calls ∧
        w.LoadSharedConfigProfile
            (if c.Profile = "" then envConfig.SharedConfigProfile else c.Profile) f1 f2 =
          .ok ()) ∧
      LoadOption.WithSharedConfigProfile c.Profile ∈ opts ∧
      (c.Profile ≠ "" →
        LoadOption.WithSharedConfigProfile
          (if c.Profile = "" then envConfig.SharedConfigProfile else c.Profile) ∈ opts)) := by
  unfold getCredentialsProvider
  cases h1 : w.commonLoadOptions c with
  | error err => simp
  | ok loadOptions =>
    simp only [henv]
    cases h3 : w.ResolveSharedCredentialsFiles c with
    | error err => simp
    | ok sharedCredentialsFiles =>
      cases h4 : w.ResolveSharedConfigFiles c with
      | error err => simp
      | ok sharedConfigFiles =>
        simp only [if_pos hprofile]
        cases h5 : w.LoadSharedConfigProfile
            (if c.Profile = "" then envConfig.SharedConfigProfile else c.Profile)
            (if sharedCredentialsFiles.length = 0 then [envConfig.SharedCredentialsFile]
              else sharedCredentialsFiles)
            (if sharedConfigFiles.length = 0 then [envConfig.SharedConfigFile]
              else sharedConfigFiles) with
        | error err =>
          simp only
          refine ⟨?_, ?_, ?_⟩
          · intro profile f1 f2 hmem
            simp only [List.singleton_append, List.mem_cons, List.mem_singleton,
              List.not_mem_nil, or_false, reduceCtorEq, false_or,
              Call.LoadSharedConfigProfile.injEq] at hmem
            exact hmem.1
          · intro lo f1 f2 _ hf1 hf2
            cases hf1
            cases hf2
            simp
          · intro opts hmem
            simp at hmem
        | ok u =>
          simp only
          obtain ⟨rest, hc, hrest⟩ := getCredentialsProvider_load_calls w c
            (loadOptions ++
              [LoadOption.WithRetryer Retryer.NopRetryer,
                LoadOption.WithEndpointResolverWithOptions (w.credentialsEndpointResolver c)]
              ++ [LoadOption.WithSharedConfigProfile c.Profile])
            ([Call.NewEnvConfig] ++
              [Call.LoadSharedConfigProfile
                (if c.Profile = "" then envConfig.SharedConfigProfile else c.Profile)
                (if sharedCredentialsFiles.length = 0 then [envConfig.SharedCredentialsFile]
                  else sharedCredentialsFiles)
                (if sharedConfigFiles.length = 0 then [envConfig.SharedConfigFile]
                  else sharedConfigFiles)])
          rw [hc]
          refine ⟨?_, ?_, ?_⟩
          · intro profile f1 f2 hmem
            simp only [List.singleton_append, List.cons_append, List.nil_append,
              List.mem_cons, reduceCtorEq, false_or,
              Call.LoadSharedConfigProfile.injEq] at hmem
            rcases hmem with h | h
            · exact h.1
            · exact absurd (hrest _ h).1 (by simp [Call.isSetup])
          · intro lo f1 f2 _ hf1 hf2
            cases hf1
            cases hf2
            simp
          · intro opts hmem
            simp only [List.singleton_append, List.cons_append, List.nil_append,
              List.mem_cons, reduceCtorEq, false_or, Call.LoadDefaultConfig.injEq] at hmem
            have hopts : opts = withStaticCredentials c
                (loadOptions ++
                  [LoadOption.WithRetryer Retryer.NopRetryer,
                    LoadOption.WithEndpointResolverWithOptions
                      (w.credentialsEndpointResolver c)]
                  ++ [LoadOption.WithSharedConfigProfile c.Profile]) := by
              rcases hmem with h | h
              · exact h
              · exact absurd rfl ((hrest _ h).2 opts)
            have hin : LoadOption.WithSharedConfigProfile c.Profile ∈ opts := by
              rw [hopts]
              exact mem_withStaticCredentials c _ _ (by simp)
            refine ⟨⟨(if sharedCredentialsFiles.length = 0 then [envConfig.SharedCredentialsFile]
                else sharedCredentialsFiles),
              (if sharedConfigFiles.length = 0 then [envConfig.SharedConfigFile]
                else sharedConfigFiles), by simp, ?_⟩, hin, ?_⟩
            · cases u
              exact h5
            · intro hne
              rw [if_neg hne]
              exact hin

/-- Witness of the amended C12: the first case of
`TestAWSGetCredentials_sharedCredentialsFile`, the profile `myprofile` named
in the configuration and held by the credentials file of the environment. -/
theorem getCredentialsProvider_effective_profile_witness :
    envProfileWorld.NewEnvConfig =
      .ok { SharedConfigProfile := "myprofile", SharedCredentialsFile := envCredentialsFile } ∧
    (if ({ Profile := "myprofile" } : Config).Profile = "" then "myprofile"
      else ({ Profile := "myprofile" } : Config).Profile) ≠ "" ∧
    Call.LoadSharedConfigProfile "myprofile" [envCredentialsFile] [""] ∈
      (getCredentialsProvider envProfileWorld { Profile := "myprofile" }).calls ∧
    envProfileWorld.LoadSharedConfigProfile "myprofile" [envCredentialsFile] [""] = .ok () ∧
    Call.LoadDefaultConfig
        [.common "WithRegion", .common "WithHTTPClient", .WithRetryer .NopRetryer,
          .WithEndpointResolverWithOptions ⟨"credentialsEndpointResolver"⟩,
          .WithSharedConfigProfile "myprofile"] ∈
      (getCredentialsProvider envProfileWorld { Profile := "myprofile" }).calls ∧
    LoadOption.WithSharedConfigProfile "myprofile" ∈
      [LoadOption.common "WithRegion", .common "WithHTTPClient", .WithRetryer .NopRetryer,
        .WithEndpointResolverWithOptions ⟨"credentialsEndpointResolver"⟩,
        .WithSharedConfigProfile "myprofile"] :=
  ⟨rfl, by decide,
    (getCredentialsProvider_effective_profile envProfileWorld { Profile := "myprofile" }
      { SharedConfigProfile := "myprofile", SharedCredentialsFile := envCredentialsFile }
      rfl (by decide)).2.1 _ [] [] rfl rfl rfl,
    rfl, by decide,
    ((getCredentialsProvider_effective_profile envProfileWorld { Profile := "myprofile" }
      { SharedConfigProfile := "myprofile", SharedCredentialsFile := envCredentialsFile }
      rfl (by decide)).2.2
      [.common "WithRegion", .common "WithHTTPClient", .WithRetryer .NopRetryer,
        .WithEndpointResolverWithOptions ⟨"credentialsEndpointResolver"⟩,
        .WithSharedConfigProfile "myprofile"] (by decide)).2.2 (by decide)⟩

end AwsBase
